import Mathlib

/-!
Shallow embedding of the chess engine "Sacrifice" (C sources under src/).

Conventions carried over from the source:
* a square is `struct Piece { int type; int colour; int hasMoved; }` with
  `type = -1` / `colour = -1` marking an empty square; we keep the raw `Int`
  fields and the sentinel values;
* the board is indexed `[file 0..7 = a..h][rank 0..7 = 1..8]`, White's back
  rank at rank 0; it is modelled as a function `Nat → Nat → Sq` (only indices
  0..7 are ever read);
* coordinates inside the rules code are C `int`s and are modelled as `Int`;
* `double` scores are modelled as `ℚ` (every constant in rewards.c is a small
  dyadic rational, so the C double arithmetic on them is exact);
* process-wide globals read by a function (`lastMove`, `boardHistoryCount`,
  `halfmoveClock`, the board history) become explicit parameters.
-/

namespace Sacrifice

/-- Piece kind constants of `enum PieceType` in chess.h. -/
def PAWN : Int := 0

def KNIGHT : Int := 1

def BISHOP : Int := 2

def ROOK : Int := 3

def QUEEN : Int := 4

def KING : Int := 5

/-- Colour constants of `enum Colour` in chess.h (as stored in a square). -/
def WHITE : Int := 0

def BLACK : Int := 1

/-- The `enum Colour` values a function parameter can take. -/
inductive Colour where
  | white
  | black
deriving DecidableEq, Repr

def Colour.toInt : Colour → Int
  | .white => WHITE
  | .black => BLACK

def Colour.opp : Colour → Colour
  | .white => .black
  | .black => .white

/-- One board square: `struct Piece` from chess.h, with the `-1` sentinels. -/
structure Sq where
  type : Int
  colour : Int
  hasMoved : Bool
deriving DecidableEq, Repr

def emptySq : Sq := ⟨-1, -1, false⟩

/-- The 8x8 board, `struct Piece board[8][8]`; only indices 0..7 are used. -/
def Board : Type := Nat → Nat → Sq

/-- Read `board[x][y]` for C `int` coordinates (callers stay in bounds). -/
def bget (b : Board) (x y : Int) : Sq := b x.toNat y.toNat

/-- Write `board[x][y] = s` for C `int` coordinates. -/
def bset (b : Board) (x y : Int) (s : Sq) : Board :=
  fun i j => if (i : Int) = x ∧ (j : Int) = y then s else b i j

/-- `struct Move` from chess.h. -/
structure Move where
  fromX : Int
  fromY : Int
  toX : Int
  toY : Int
deriving DecidableEq, Repr

/-- Bounds test `0 <= x && x < 8 && 0 <= y && y < 8` used throughout rules.c. -/
def inB (x y : Int) : Bool := 0 ≤ x ∧ x < 8 ∧ 0 ≤ y ∧ y < 8

/-!
`isInCheck` (boardchecks.c 19-154) reads only the `type` and `colour` fields
of squares, never `hasMoved`; we therefore define it over the projection of
the board to those two fields, which makes that fact available to proofs.
-/

/-- The `(type, colour)` projection of the board. -/
def TCView : Type := Nat → Nat → Int × Int

def tcView (b : Board) : TCView := fun x y => ((b x y).type, (b x y).colour)

def tcget (v : TCView) (x y : Int) : Int × Int := v x.toNat y.toNat

/-- Scan of boardchecks.c 24-39: the first square in x-major order holding a
piece of the given type and colour (`-1` when there is none). -/
def findPieceTC (v : TCView) (t colourInt : Int) : Option (Int × Int) :=
  (((List.range 8).flatMap (fun x => (List.range 8).map (fun y => ((x : Int), (y : Int))))).find?
    (fun p => tcget v p.1 p.2 = (t, colourInt)))

/-- Ray walk of the `while` loops in boardchecks.c 96-108 / 119-131: first
occupied square along direction `(dx, dy)` starting at `(x, y)`. -/
def rayFirstTC (v : TCView) : Nat → Int → Int → Int → Int → Option (Int × Int)
  | 0, _, _, _, _ => none
  | fuel + 1, x, y, dx, dy =>
    if inB x y then
      let s := tcget v x y
      if s.1 ≠ -1 then some s else rayFirstTC v fuel (x + dx) (y + dy) dx dy
    else none

/-- Knight offsets of boardchecks.c 74-75. -/
def knightThreatOffsets : List (Int × Int) :=
  [(1, 2), (2, 1), (-1, 2), (-2, 1), (1, -2), (2, -1), (-1, -2), (-2, -1)]

/-- The four diagonal directions of boardchecks.c 90-92. -/
def diagDirs : List (Int × Int) := [(-1, -1), (-1, 1), (1, -1), (1, 1)]

/-- The four straight directions decoded in boardchecks.c 113-116
(`dir = 0,1,2,3` gives `(1,0), (-1,0), (0,1), (0,-1)`). -/
def straightDirs : List (Int × Int) := [(1, 0), (-1, 0), (0, 1), (0, -1)]

/-- King-adjacency offsets of the nested loop in boardchecks.c 135-151. -/
def kingAdjOffsets : List (Int × Int) :=
  [(-1, -1), (-1, 0), (-1, 1), (0, -1), (0, 1), (1, -1), (1, 0), (1, 1)]

/-- `isInCheck` (boardchecks.c 19-154) over the `(type, colour)` view. -/
def isInCheckTC (v : TCView) (c : Colour) : Bool :=
  match findPieceTC v KING c.toInt with
  | none => false
  | some (kx, ky) =>
    let e := c.opp.toInt
    let pawnThreat :=
      match c with
      | .white =>
        (inB (kx - 1) (ky + 1) ∧ tcget v (kx - 1) (ky + 1) = (PAWN, BLACK)) ∨
        (inB (kx + 1) (ky + 1) ∧ tcget v (kx + 1) (ky + 1) = (PAWN, BLACK))
      | .black =>
        (inB (kx - 1) (ky - 1) ∧ tcget v (kx - 1) (ky - 1) = (PAWN, WHITE)) ∨
        (inB (kx + 1) (ky - 1) ∧ tcget v (kx + 1) (ky - 1) = (PAWN, WHITE))
    let knightThreat := knightThreatOffsets.any (fun o =>
      inB (kx + o.1) (ky + o.2) ∧ tcget v (kx + o.1) (ky + o.2) = (KNIGHT, e))
    let diagThreat := diagDirs.any (fun d =>
      match rayFirstTC v 8 (kx + d.1) (ky + d.2) d.1 d.2 with
      | some s => s.2 = e ∧ (s.1 = BISHOP ∨ s.1 = QUEEN)
      | none => false)
    let straightThreat := straightDirs.any (fun d =>
      match rayFirstTC v 8 (kx + d.1) (ky + d.2) d.1 d.2 with
      | some s => s.2 = e ∧ (s.1 = ROOK ∨ s.1 = QUEEN)
      | none => false)
    let kingThreat := kingAdjOffsets.any (fun o =>
      inB (kx + o.1) (ky + o.2) ∧ tcget v (kx + o.1) (ky + o.2) = (KING, e))
    pawnThreat || knightThreat || diagThreat || straightThreat || kingThreat

/-- `isInCheck` from boardchecks.c: the king of colour `c` is attacked
(`false` when the board has no such king). -/
def isInCheck (b : Board) (c : Colour) : Bool := isInCheckTC (tcView b) c

/-- The move simulation inside `isMoveValid` (boardchecks.c 160-166):
destination gets the moved piece, the source square's `type` and `colour`
become `-1` (its `hasMoved` field is not touched, exactly as in the C). -/
def simMoveB (b : Board) (fx fy tx ty : Int) : Board :=
  let moved := bget b fx fy
  let b1 := bset b tx ty moved
  bset b1 fx fy { bget b1 fx fy with type := -1, colour := -1 }

/-- `isMoveValid` (boardchecks.c 157-176). -/
def isMoveValid (b : Board) (fx fy tx ty : Int) (c : Colour) : Bool :=
  !(isInCheck (simMoveB b fx fy tx ty) c)

/-!
The move generator `validMoves` (rules.c 74-274).  The C fills a fixed array
in one pass over the squares (outer loop `i` = file, inner loop `j` = rank);
we build the same list in the same order.  The global `lastMove` read by the
en-passant test becomes the parameter `lm`.
-/

/-- One iteration of the pawn capture loop (rules.c 107-131) for offset `di`:
the ordinary diagonal capture followed by the en-passant emission. -/
def pawnCaptureAt (lm : Move) (b : Board) (c : Colour) (i j dir di : Int) : List Move :=
  let ni := i + di
  let nj := j + dir
  if 0 ≤ ni ∧ ni < 8 ∧ 0 ≤ nj ∧ nj < 8 then
    (if (bget b ni nj).type ≠ -1 ∧ (bget b ni nj).colour ≠ c.toInt ∧
        isMoveValid b i j ni nj c then [⟨i, j, ni, nj⟩] else [])
    ++
    (if (bget b ni j).type = PAWN ∧ (bget b ni j).colour ≠ c.toInt ∧
        lm.fromX = ni ∧ lm.toX = ni ∧
        ((c = .white ∧ j = 4 ∧ lm.fromY = 6 ∧ lm.toY = 4) ∨
         (c = .black ∧ j = 3 ∧ lm.fromY = 1 ∧ lm.toY = 3)) ∧
        isMoveValid b i j ni nj c then [⟨i, j, ni, nj⟩] else [])
  else []

/-- Pawn emissions (rules.c 91-133): forward one, forward two from the start
row, then the capture loop for `di = -1` and `di = 1`. -/
def pawnMovesList (lm : Move) (b : Board) (c : Colour) (i j : Int) : List Move :=
  let dir : Int := if c = .white then 1 else -1
  let startRow : Int := if c = .white then 1 else 6
  (if 0 ≤ j + dir ∧ j + dir < 8 ∧ (bget b i (j + dir)).type = -1 ∧
      isMoveValid b i j i (j + dir) c then [⟨i, j, i, j + dir⟩] else [])
  ++
  (if j = startRow ∧ (bget b i (j + dir)).type = -1 ∧ (bget b i (j + 2 * dir)).type = -1 ∧
      isMoveValid b i j i (j + 2 * dir) c then [⟨i, j, i, j + 2 * dir⟩] else [])
  ++ pawnCaptureAt lm b c i j dir (-1)
  ++ pawnCaptureAt lm b c i j dir 1

/-- Knight offsets in generator order (rules.c 137). -/
def knightGenOffsets : List (Int × Int) :=
  [(2, 1), (1, 2), (-1, 2), (-2, 1), (-2, -1), (-1, -2), (1, -2), (2, -1)]

/-- Knight emissions (rules.c 135-147). -/
def knightMovesList (b : Board) (c : Colour) (i j : Int) : List Move :=
  knightGenOffsets.flatMap (fun o =>
    let ni := i + o.1
    let nj := j + o.2
    if 0 ≤ ni ∧ ni < 8 ∧ 0 ≤ nj ∧ nj < 8 ∧
        ((bget b ni nj).type = -1 ∨ (bget b ni nj).colour ≠ c.toInt) ∧
        isMoveValid b i j ni nj c then [⟨i, j, ni, nj⟩] else [])

/-- Slider directions built in rules.c 156-185. -/
def sliderGenDirs (t : Int) : List (Int × Int) :=
  if t = BISHOP then [(-1, -1), (-1, 1), (1, -1), (1, 1)]
  else if t = ROOK then [(-1, 0), (1, 0), (0, -1), (0, 1)]
  else [(-1, -1), (-1, 0), (-1, 1), (0, -1), (0, 1), (1, -1), (1, 0), (1, 1)]

/-- The slider ray walk (rules.c 187-207): empty squares are emitted and the
walk continues; the first enemy square is emitted and the walk stops. -/
def slideWalk (b : Board) (c : Colour) (i j dx dy : Int) :
    Nat → Int → Int → List Move
  | 0, _, _ => []
  | fuel + 1, ni, nj =>
    if 0 ≤ ni ∧ ni < 8 ∧ 0 ≤ nj ∧ nj < 8 then
      if (bget b ni nj).type = -1 then
        (if isMoveValid b i j ni nj c then [⟨i, j, ni, nj⟩] else [])
          ++ slideWalk b c i j dx dy fuel (ni + dx) (nj + dy)
      else
        if (bget b ni nj).colour ≠ c.toInt ∧ isMoveValid b i j ni nj c then
          [⟨i, j, ni, nj⟩]
        else []
    else []

/-- Bishop/rook/queen emissions (rules.c 149-209); fuel 8 dominates the at
most 8 in-bounds steps of any ray. -/
def sliderMovesList (b : Board) (c : Colour) (t i j : Int) : List Move :=
  (sliderGenDirs t).flatMap (fun d => slideWalk b c i j d.1 d.2 8 (i + d.1) (j + d.2))

/-- King step offsets in generator order (rules.c 213-225, `dx` outer). -/
def kingGenOffsets : List (Int × Int) :=
  [(-1, -1), (-1, 0), (-1, 1), (0, -1), (0, 1), (1, -1), (1, 0), (1, 1)]

/-- Ordinary king steps (rules.c 213-225). -/
def kingStepList (b : Board) (c : Colour) (i j : Int) : List Move :=
  kingGenOffsets.flatMap (fun o =>
    let ni := i + o.1
    let nj := j + o.2
    if 0 ≤ ni ∧ ni < 8 ∧ 0 ≤ nj ∧ nj < 8 ∧
        ((bget b ni nj).type = -1 ∨ (bget b ni nj).colour ≠ c.toInt) ∧
        isMoveValid b i j ni nj c then [⟨i, j, ni, nj⟩] else [])

/-- The board with the king lifted from `(i, j)` onto `(px, j)` — the
temporary mutation rules.c performs to test the square the king crosses. -/
def castleProbe (b : Board) (i j px : Int) (p : Sq) : Board :=
  bset (bset b i j { p with type := -1, colour := -1 }) px j p

/-- Kingside castle emission (rules.c 231-246): unmoved rook on file 7, files
5 and 6 empty, king not in check on the crossed file 5.  The landing square
(file 6) is not tested. -/
def castleKingsideList (b : Board) (c : Colour) (i j : Int) (p : Sq) : List Move :=
  if (bget b 7 j).type = ROOK ∧ (bget b 7 j).colour = c.toInt ∧
      (bget b 7 j).hasMoved = false then
    if (bget b 5 j).type = -1 ∧ (bget b 6 j).type = -1 then
      if isInCheck (castleProbe b i j 5 p) c = false then [⟨i, j, 6, j⟩] else []
    else []
  else []

/-- Queenside castle emission (rules.c 247-262): unmoved rook on file 0, files
1, 2, 3 empty, king not in check on the crossed file 3.  The landing square
(file 2) is not tested. -/
def castleQueensideList (b : Board) (c : Colour) (i j : Int) (p : Sq) : List Move :=
  if (bget b 0 j).type = ROOK ∧ (bget b 0 j).colour = c.toInt ∧
      (bget b 0 j).hasMoved = false then
    if (bget b 1 j).type = -1 ∧ (bget b 2 j).type = -1 ∧ (bget b 3 j).type = -1 then
      if isInCheck (castleProbe b i j 3 p) c = false then [⟨i, j, 2, j⟩] else []
    else []
  else []

/-- King emissions (rules.c 211-265): steps, then castling when the king has
not moved and is not in check. -/
def kingMovesList (b : Board) (c : Colour) (i j : Int) (p : Sq) : List Move :=
  kingStepList b c i j
    ++ (if p.hasMoved = false ∧ isInCheck b c = false then
          castleKingsideList b c i j p ++ castleQueensideList b c i j p
        else [])

/-- Emissions of one square of the generator loop (rules.c 85-269): skip
squares not holding a piece of `colour`, then dispatch on the piece type. -/
def squareMoves (lm : Move) (b : Board) (c : Colour) (i j : Int) : List Move :=
  let p := bget b i j
  if p.colour ≠ c.toInt then []
  else if p.type = PAWN then pawnMovesList lm b c i j
  else if p.type = KNIGHT then knightMovesList b c i j
  else if p.type = BISHOP ∨ p.type = ROOK ∨ p.type = QUEEN then
    sliderMovesList b c p.type i j
  else if p.type = KING then kingMovesList b c i j p
  else []

/-- `validMoves` (rules.c 74-274): all legal moves of `colour`, emitted file
by file, rank by rank, in the per-piece order above. -/
def validMoves (lm : Move) (b : Board) (c : Colour) : List Move :=
  (List.range 8).flatMap (fun i =>
    (List.range 8).flatMap (fun j => squareMoves lm b c (i : Int) (j : Int)))

/-- The move simulation of `isCheckmate` (boardchecks.c 189-195): same two
assignments as inside `isMoveValid`. -/
def simMoveM (b : Board) (m : Move) : Board := simMoveB b m.fromX m.fromY m.toX m.toY

/-- `isStalemate` (boardchecks.c 8-16). -/
def isStalemate (lm : Move) (b : Board) (c : Colour) : Bool :=
  if isInCheck b c then false else (validMoves lm b c).length == 0

/-- `isCheckmate` (boardchecks.c 178-204): in check and no generated move
escapes check. -/
def isCheckmate (lm : Move) (b : Board) (c : Colour) : Bool :=
  if isInCheck b c = false then false
  else (validMoves lm b c).all (fun m => isInCheck (simMoveM b m) c)

/-- `countMajorPieces` (boardchecks.c 410-425). -/
def countMajorPieces (b : Board) (c : Colour) : Nat :=
  ((List.range 8).flatMap (fun i => (List.range 8).map (fun j => b i j))).countP
    (fun s => decide (s.colour = c.toInt ∧
      (s.type = QUEEN ∨ s.type = ROOK ∨ s.type = BISHOP ∨ s.type = KNIGHT)))

/-- `isInEndgame` (boardchecks.c 428-434): only Black's major-piece count is
consulted (the White count is computed and discarded in the C). -/
def isInEndgame (b : Board) : Bool := countMajorPieces b .black ≤ 2

/-- `squareDistance` (boardchecks.c 437-442): Chebyshev distance. -/
def squareDistance (x1 y1 x2 y2 : Int) : Int :=
  let adx := if x1 - x2 < 0 then -(x1 - x2) else x1 - x2
  let ady := if y1 - y2 < 0 then -(y1 - y2) else y1 - y2
  if adx > ady then adx else ady

/-- `canBeCaptured` (boardchecks.c 295-407): the piece on `(x, y)` is attacked
by the side opposite to the piece's colour.  Like `isInCheck` it reads only
the `type` and `colour` fields. -/
def canBeCaptured (b : Board) (x y : Int) : Bool :=
  let pieceColour := (bget b x y).colour
  let oppC : Int := if pieceColour = WHITE then BLACK else WHITE
  let v := tcView b
  let pawnThreat :=
    if oppC = WHITE then
      (inB (x - 1) (y - 1) ∧ tcget v (x - 1) (y - 1) = (PAWN, WHITE)) ∨
      (inB (x + 1) (y - 1) ∧ tcget v (x + 1) (y - 1) = (PAWN, WHITE))
    else
      (inB (x - 1) (y + 1) ∧ tcget v (x - 1) (y + 1) = (PAWN, BLACK)) ∨
      (inB (x + 1) (y + 1) ∧ tcget v (x + 1) (y + 1) = (PAWN, BLACK))
  let knightThreat := knightThreatOffsets.any (fun o =>
    inB (x + o.1) (y + o.2) ∧ tcget v (x + o.1) (y + o.2) = (KNIGHT, oppC))
  let diagThreat := diagDirs.any (fun d =>
    match rayFirstTC v 8 (x + d.1) (y + d.2) d.1 d.2 with
    | some s => s.2 = oppC ∧ (s.1 = BISHOP ∨ s.1 = QUEEN)
    | none => false)
  let straightThreat := straightDirs.any (fun d =>
    match rayFirstTC v 8 (x + d.1) (y + d.2) d.1 d.2 with
    | some s => s.2 = oppC ∧ (s.1 = ROOK ∨ s.1 = QUEEN)
    | none => false)
  let kingThreat := kingAdjOffsets.any (fun o =>
    inB (x + o.1) (y + o.2) ∧ tcget v (x + o.1) (y + o.2) = (KING, oppC))
  pawnThreat || knightThreat || diagThreat || straightThreat || kingThreat

/-- Truncation of an (exactly represented) C `double` to `int`: rounding
toward zero, i.e. T-division of numerator by denominator. -/
def ratTruncToInt (q : ℚ) : Int := q.num.tdiv (q.den : Int)

/-- `evaluateEndgameAdvancement` (evaluation.c 106-173).  The C computes the
bonus as `(int)((distanceBefore - distanceAfter) * (5 - distanceAfter) * 0.5)`. -/
def evaluateEndgameAdvancement (b : Board) (fromX fromY toX toY : Int) (c : Colour) : Int :=
  if isInEndgame b = false then 0
  else
    match findPieceTC (tcView b) KING c.opp.toInt with
    | none => 0
    | some (ekx, eky) =>
      let movingPiece := bget b fromX fromY
      if movingPiece.type = PAWN ∨ movingPiece.type = KING then 0
      else
        let distanceBefore := squareDistance fromX fromY ekx eky
        let distanceAfter := squareDistance toX toY ekx eky
        if distanceAfter < distanceBefore then
          if canBeCaptured (simMoveB b fromX fromY toX toY) toX toY then 0
          else ((distanceBefore - distanceAfter) * (5 - distanceAfter)).tdiv 2
        else 0

/-!
Tunable reward constants (rewards.c) — all exactly representable doubles,
modelled as `ℚ`.
-/

def development_penalty_per_move : ℚ := 2

def global_position_table_scale : ℚ := 15

def knight_backstop_penalty : ℚ := 50

def knight_edge_penalty : ℚ := 35

def slider_mobility_per_square : ℚ := 8

def undefended_central_pawn_penalty : ℚ := 25

def central_pawn_bonus : ℚ := 50

def pawn_promotion_immediate_bonus : ℚ := 400

def pawn_promotion_immediate_distance : ℚ := 2

def pawn_promotion_delayed_bonus : ℚ := 100

def pawn_promotion_delayed_distance : ℚ := 4

def king_hasmoved_penalty : ℚ := 120

def king_center_exposure_penalty : ℚ := 40

def castling_bonus : ℚ := 70

def king_adjacent_attack_bonus : ℚ := 25

def check_penalty_white : ℚ := 150

def check_bonus_black : ℚ := 150

def stalemate_black_penalty : ℚ := 600

def stalemate_white_penalty : ℚ := 600

def static_futility_prune_margin : ℚ := 300

def checkmate_score : ℚ := 999999999

def stalemate_score : ℚ := 500

def draw_score : ℚ := 0

/-- Matrix lookup `t[x][y]` for the 8x8 tables below. -/
def mget (t : List (List ℚ)) (x y : Int) : ℚ := ((t.getD x.toNat []).getD y.toNat 0)

/-- `pawn_pst` (rewards.c 62-71), indexed `[x][y]`. -/
def pawn_pst : List (List ℚ) :=
  [[0, 0, 0, 0, 0, 0, 0, 0],
   [5, 5, 5, 5, 5, 5, 5, 5],
   [2, 2, 3, 4, 4, 3, 2, 2],
   [1, 1, 2, 5, 5, 2, 1, 1],
   [1/2, 1/2, 1, 8, 8, 1, 1/2, 1/2],
   [0, 0, 0, 10, 10, 0, 0, 0],
   [0, 0, 0, 15, 15, 0, 0, 0],
   [0, 0, 0, 0, 0, 0, 0, 0]]

def pawn_pst_scale : ℚ := 1

/-- `knight_pst` (rewards.c 75-84). -/
def knight_pst : List (List ℚ) :=
  [[-10, -5, -2, -2, -2, -2, -5, -10],
   [-5, 0, 3, 3, 3, 3, 0, -5],
   [-2, 3, 8, 10, 10, 8, 3, -2],
   [-2, 3, 10, 12, 12, 10, 3, -2],
   [-2, 3, 10, 12, 12, 10, 3, -2],
   [-2, 3, 8, 10, 10, 8, 3, -2],
   [-5, 0, 3, 3, 3, 3, 0, -5],
   [-10, -5, -2, -2, -2, -2, -5, -10]]

def knight_pst_scale : ℚ := 1

/-- `bishop_pst` (rewards.c 88-97). -/
def bishop_pst : List (List ℚ) :=
  [[-5, -2, -2, -2, -2, -2, -2, -5],
   [-2, 3, 2, 2, 2, 2, 3, -2],
   [-2, 2, 8, 3, 3, 8, 2, -2],
   [-2, 2, 3, 10, 10, 3, 2, -2],
   [-2, 2, 3, 10, 10, 3, 2, -2],
   [-2, 2, 8, 3, 3, 8, 2, -2],
   [-2, 3, 2, 2, 2, 2, 3, -2],
   [-5, -2, -2, -2, -2, -2, -2, -5]]

def bishop_pst_scale : ℚ := 1

/-- `rook_pst` (rewards.c 101-110). -/
def rook_pst : List (List ℚ) :=
  [[0, 0, 0, 2, 2, 0, 0, 0],
   [2, 2, 2, 3, 3, 2, 2, 2],
   [0, 0, 0, 2, 2, 0, 0, 0],
   [0, 0, 0, 2, 2, 0, 0, 0],
   [0, 0, 0, 2, 2, 0, 0, 0],
   [0, 0, 0, 2, 2, 0, 0, 0],
   [2, 2, 2, 3, 3, 2, 2, 2],
   [0, 0, 0, 2, 2, 0, 0, 0]]

def rook_pst_scale : ℚ := 1

/-- `queen_pst` (rewards.c 114-123). -/
def queen_pst : List (List ℚ) :=
  [[-5, -3, -3, -1, -1, -3, -3, -5],
   [-3, 0, 0, 0, 0, 0, 0, -3],
   [-3, 0, 2, 1, 1, 2, 0, -3],
   [-1, 0, 1, 3, 3, 1, 0, -1],
   [-1, 0, 1, 3, 3, 1, 0, -1],
   [-3, 0, 2, 1, 1, 2, 0, -3],
   [-3, 0, 0, 0, 0, 0, 0, -3],
   [-5, -3, -3, -1, -1, -3, -3, -5]]

def queen_pst_scale : ℚ := 1

/-- `king_pst_mg` (rewards.c 127-136). -/
def king_pst_mg : List (List ℚ) :=
  [[-10, -10, -10, -10, -10, -10, -10, -10],
   [-10, -8, -8, -8, -8, -8, -8, -10],
   [-10, -8, -5, -5, -5, -5, -8, -10],
   [-10, -8, -5, -2, -2, -5, -8, -10],
   [-10, -8, -5, -2, -2, -5, -8, -10],
   [-10, -8, -5, -5, -5, -5, -8, -10],
   [-10, -8, -8, -8, -8, -8, -8, -10],
   [-10, -10, -10, -10, -10, -10, -10, -10]]

def king_pst_mg_scale : ℚ := 1

/-- `king_pst_eg` (rewards.c 140-149). -/
def king_pst_eg : List (List ℚ) :=
  [[-5, -3, -3, -3, -3, -3, -3, -5],
   [-3, 0, 2, 3, 3, 2, 0, -3],
   [-3, 2, 5, 8, 8, 5, 2, -3],
   [-3, 3, 8, 10, 10, 8, 3, -3],
   [-3, 3, 8, 10, 10, 8, 3, -3],
   [-3, 2, 5, 8, 8, 5, 2, -3],
   [-3, 0, 2, 3, 3, 2, 0, -3],
   [-5, -3, -3, -3, -3, -3, -3, -5]]

def king_pst_eg_scale : ℚ := 1

/-- `pieceValue` (evaluation.c 228): `{100, 300, 300, 500, 900, 20000}`. -/
def pieceValue (t : Int) : ℚ := ([100, 300, 300, 500, 900, 20000] : List ℚ).getD t.toNat 0

/-- `globalTable` (evaluation.c 231-239). -/
def globalTable : List (List ℚ) :=
  [[0, 0, 0, 0, 0, 0, 0, 0],
   [0, 1, 1, 1, 1, 1, 1, 0],
   [0, 1, 2, 2, 2, 2, 1, 0],
   [0, 1, 2, 3, 3, 2, 1, 0],
   [0, 1, 2, 3, 3, 2, 1, 0],
   [0, 1, 2, 2, 2, 2, 1, 0],
   [0, 1, 1, 1, 1, 1, 1, 0],
   [0, 0, 0, 0, 0, 0, 0, 0]]

/-!
The static evaluator `evaluateBoardPosition` (evaluation.c 176-701), minus
the transposition-table lookup and store (modelled separately as `evalWithTT`,
whose miss path computes exactly this function) and minus the `if (0)` dead
king-island block (evaluation.c 562-675).  The global `boardHistoryCount`
read by the development penalty becomes the parameter `movesPlayed`, and the
global `lastMove` consumed by the stalemate test becomes `lm`.  The king
piece-square table and its scale are passed as parameters so that the
spec-modelled endgame variant can reuse the body; the source always passes
`king_pst_mg` (evaluation.c 346-349).
-/

/-- Accumulator of the first pass over the squares (evaluation.c 241-503):
running score, the two per-side attack maps, and the king coordinates
(`-1` when not found yet). -/
structure EvalSt where
  score : ℚ
  wAtt : Nat → Nat → Bool
  bAtt : Nat → Nat → Bool
  wkx : Int
  wky : Int
  bkx : Int
  bky : Int

/-- Mark `attackMap[x][y] = 1`. -/
def markAtt (m : Nat → Nat → Bool) (x y : Int) : Nat → Nat → Bool :=
  fun i j => if (i : Int) = x ∧ (j : Int) = y then true else m i j

/-- Mark the attack map of the side owning the current piece
(the `attackMap` pointer of evaluation.c 256-260). -/
def stMark (st : EvalSt) (whiteSide : Bool) (x y : Int) : EvalSt :=
  if whiteSide then { st with wAtt := markAtt st.wAtt x y }
  else { st with bAtt := markAtt st.bAtt x y }

/-- The slider mobility walk (evaluation.c 464-479): count squares along the
ray (the blocking square included), marking each as attacked. -/
def mobWalk (b : Board) (dx dy : Int) (whiteSide : Bool) :
    Nat → Int → Int → EvalSt → Nat × EvalSt
  | 0, _, _, st => (0, st)
  | fuel + 1, cx, cy, st =>
    if inB cx cy then
      let st1 := stMark st whiteSide cx cy
      if (bget b cx cy).type ≠ -1 then (1, st1)
      else
        let r := mobWalk b dx dy whiteSide fuel (cx + dx) (cy + dy) st1
        (r.1 + 1, r.2)
    else (0, st)

/-- Whether a piece with `hasMoved = 0` sits on its canonical starting square
(evaluation.c 282-315). -/
def atStartSquare (p : Sq) (xi yi : Int) : Bool :=
  if p.hasMoved = false then
    if p.colour = WHITE then
      (p.type = PAWN ∧ yi = 1) ∨
      (p.type = ROOK ∧ (xi = 0 ∨ xi = 7) ∧ yi = 0) ∨
      (p.type = KNIGHT ∧ (xi = 1 ∨ xi = 6) ∧ yi = 0) ∨
      (p.type = BISHOP ∧ (xi = 2 ∨ xi = 5) ∧ yi = 0) ∨
      (p.type = QUEEN ∧ xi = 3 ∧ yi = 0) ∨
      (p.type = KING ∧ xi = 4 ∧ yi = 0)
    else
      (p.type = PAWN ∧ yi = 6) ∨
      (p.type = ROOK ∧ (xi = 0 ∨ xi = 7) ∧ yi = 7) ∨
      (p.type = KNIGHT ∧ (xi = 1 ∨ xi = 6) ∧ yi = 7) ∨
      (p.type = BISHOP ∧ (xi = 2 ∨ xi = 5) ∧ yi = 7) ∨
      (p.type = QUEEN ∧ xi = 3 ∧ yi = 7) ∨
      (p.type = KING ∧ xi = 4 ∧ yi = 7)
  else false

/-- Slider directions of the evaluator (evaluation.c 443-462): bishop rays
first when the piece moves diagonally, rook rays when it moves straight. -/
def evalSliderDirs (t : Int) : List (Int × Int) :=
  (if t = BISHOP ∨ t = QUEEN then [(1, 1), (1, -1), (-1, 1), (-1, -1)] else [])
    ++ (if t = ROOK ∨ t = QUEEN then [(1, 0), (-1, 0), (0, 1), (0, -1)] else [])

/-- Knight attack offsets of the evaluator (evaluation.c 428). -/
def knightEvalOffsets : List (Int × Int) :=
  [(2, 1), (1, 2), (-1, 2), (-2, 1), (-2, -1), (-1, -2), (1, -2), (2, -1)]

/-- The per-square body of the evaluator's first pass (evaluation.c 247-503),
in source order: king tracking, development penalty, material, global table,
piece-square table, then the piece-specific terms and attack marks. -/
def processSquare (ktab : List (List ℚ)) (kscale : ℚ) (movesPlayed : Nat) (b : Board)
    (st : EvalSt) (x y : Nat) : EvalSt :=
  let p := b x y
  if p.type = -1 then st
  else
    let xi : Int := x
    let yi : Int := y
    let sign : ℚ := if p.colour = WHITE then 1 else -1
    let whiteSide := p.colour = WHITE
    let st := if p.type = KING then
        (if p.colour = WHITE then { st with wkx := xi, wky := yi }
         else { st with bkx := xi, bky := yi })
      else st
    let penaltyPerPiece := development_penalty_per_move * movesPlayed
    let st := if atStartSquare p xi yi ∧ penaltyPerPiece > 0 then
        { st with score := st.score - sign * penaltyPerPiece }
      else st
    let st := { st with score := st.score + sign * pieceValue p.type }
    let st := { st with score := st.score + sign * mget globalTable xi yi * global_position_table_scale }
    let st :=
      if p.type = PAWN then { st with score := st.score + sign * mget pawn_pst xi yi * pawn_pst_scale }
      else if p.type = KNIGHT then { st with score := st.score + sign * mget knight_pst xi yi * knight_pst_scale }
      else if p.type = BISHOP then { st with score := st.score + sign * mget bishop_pst xi yi * bishop_pst_scale }
      else if p.type = ROOK then { st with score := st.score + sign * mget rook_pst xi yi * rook_pst_scale }
      else if p.type = QUEEN then { st with score := st.score + sign * mget queen_pst xi yi * queen_pst_scale }
      else if p.type = KING then { st with score := st.score + sign * mget ktab xi yi * kscale }
      else st
    let st :=
      if p.type = PAWN then
        let st :=
          if (xi = 3 ∨ xi = 4) ∧ (yi = 3 ∨ yi = 4) then
            let defended : Bool :=
              if p.colour = WHITE ∧ yi > 0 then
                (xi > 0 ∧ (b (x - 1) (y - 1)).type = PAWN ∧ (b (x - 1) (y - 1)).colour = WHITE) ∨
                (xi < 7 ∧ (b (x + 1) (y - 1)).type = PAWN ∧ (b (x + 1) (y - 1)).colour = WHITE)
              else if p.colour = BLACK ∧ yi < 7 then
                (xi > 0 ∧ (b (x - 1) (y + 1)).type = PAWN ∧ (b (x - 1) (y + 1)).colour = BLACK) ∨
                (xi < 7 ∧ (b (x + 1) (y + 1)).type = PAWN ∧ (b (x + 1) (y + 1)).colour = BLACK)
              else false
            let st := if defended = false then
                { st with score := st.score - sign * undefended_central_pawn_penalty }
              else st
            { st with score := st.score + sign * central_pawn_bonus }
          else st
        let promotionDistance : Int := if p.colour = WHITE then 7 - yi else yi
        let st :=
          if (promotionDistance : ℚ) ≤ pawn_promotion_immediate_distance then
            { st with score := st.score + sign * pawn_promotion_immediate_bonus *
                (pawn_promotion_immediate_distance - (promotionDistance : ℚ)) }
          else if (promotionDistance : ℚ) ≤ pawn_promotion_delayed_distance then
            { st with score := st.score + sign * pawn_promotion_delayed_bonus *
                (pawn_promotion_delayed_distance - (promotionDistance : ℚ)) }
          else st
        if p.colour = WHITE then
          let st := if xi > 0 ∧ yi < 7 then stMark st whiteSide (xi - 1) (yi + 1) else st
          if xi < 7 ∧ yi < 7 then stMark st whiteSide (xi + 1) (yi + 1) else st
        else
          let st := if xi > 0 ∧ yi > 0 then stMark st whiteSide (xi - 1) (yi - 1) else st
          if xi < 7 ∧ yi > 0 then stMark st whiteSide (xi + 1) (yi - 1) else st
      else st
    let st :=
      if p.type = KNIGHT then
        let st := if (p.colour = WHITE ∧ xi = 0 ∧ yi ≥ 2 ∧ yi ≤ 5) ∨
            (p.colour = BLACK ∧ xi = 7 ∧ yi ≥ 2 ∧ yi ≤ 5) then
            { st with score := st.score - sign * knight_backstop_penalty }
          else st
        let st := if xi = 0 ∨ xi = 7 then
            { st with score := st.score - sign * knight_edge_penalty }
          else st
        knightEvalOffsets.foldl (fun st o =>
          if inB (xi + o.1) (yi + o.2) then stMark st whiteSide (xi + o.1) (yi + o.2) else st) st
      else st
    let st :=
      if p.type = BISHOP ∨ p.type = ROOK ∨ p.type = QUEEN then
        (evalSliderDirs p.type).foldl (fun st d =>
          let r := mobWalk b d.1 d.2 whiteSide 8 (xi + d.1) (yi + d.2) st
          { r.2 with score := r.2.score + sign * (r.1 : ℚ) * slider_mobility_per_square }) st
      else st
    if p.type = KING then
      let st := if p.hasMoved then
          { st with score := st.score + (if p.colour = WHITE then -king_hasmoved_penalty else king_hasmoved_penalty) }
        else st
      let st := if (xi = 3 ∨ xi = 4) ∧ yi ≥ 2 ∧ yi ≤ 5 then
          { st with score := st.score + (if p.colour = WHITE then -king_center_exposure_penalty else king_center_exposure_penalty) }
        else st
      kingAdjOffsets.foldl (fun st o =>
        if inB (xi + o.1) (yi + o.2) then stMark st whiteSide (xi + o.1) (yi + o.2) else st) st
    else st

/-- The king-adjacency offsets of evaluation.c 506. -/
def kingAdjEval : List (Int × Int) :=
  [(1, 0), (-1, 0), (0, 1), (0, -1), (1, 1), (1, -1), (-1, 1), (-1, -1)]

/-- The square list of the evaluator's first pass, x-major like the C loops. -/
def squaresXY : List (Nat × Nat) :=
  (List.range 8).flatMap (fun x => (List.range 8).map (fun y => (x, y)))

/-- `evaluateBoardPosition` with the king piece-square table and its scale as
parameters (the source hard-codes `king_pst_mg`, evaluation.c 346-349). -/
def evalWithKingPST (ktab : List (List ℚ)) (kscale : ℚ) (movesPlayed : Nat)
    (lm : Move) (b : Board) : ℚ :=
  let st0 : EvalSt := ⟨0, fun _ _ => false, fun _ _ => false, -1, -1, -1, -1⟩
  let st := squaresXY.foldl (fun st xy => processSquare ktab kscale movesPlayed b st xy.1 xy.2) st0
  -- `int kingSquaresBonus = king_adjacent_attack_bonus;` (evaluation.c 507)
  let kingSquaresBonus : ℚ := (ratTruncToInt king_adjacent_attack_bonus : ℚ)
  -- evaluation.c 512-523: enemy attacks next to the White king
  let score :=
    if st.wkx ≠ -1 ∧ st.wky ≠ -1 then
      kingAdjEval.foldl (fun sc d =>
        let tx := st.wkx + d.1
        let ty := st.wky + d.2
        if tx < 0 ∨ tx > 7 ∨ ty < 0 ∨ ty > 7 then sc
        else if st.bAtt tx.toNat ty.toNat then sc + kingSquaresBonus else sc) st.score
    else st.score
  -- evaluation.c 524-557: attacks next to the Black king, then the four
  -- castling bonuses, all nested inside the Black-king-found block
  let score :=
    if st.bkx ≠ -1 ∧ st.bky ≠ -1 then
      let score := kingAdjEval.foldl (fun sc d =>
        let tx := st.bkx + d.1
        let ty := st.bky + d.2
        if tx < 0 ∨ tx > 7 ∨ ty < 0 ∨ ty > 7 then sc
        else if st.wAtt tx.toNat ty.toNat then sc - kingSquaresBonus else sc) score
      let score := if st.wkx = 6 ∧ st.wky = 0 ∧ (bget b 5 0).type = ROOK ∧ (bget b 5 0).colour = WHITE then
          score + castling_bonus else score
      let score := if st.wkx = 2 ∧ st.wky = 0 ∧ (bget b 3 0).type = ROOK ∧ (bget b 3 0).colour = WHITE then
          score + castling_bonus else score
      let score := if st.bkx = 6 ∧ st.bky = 7 ∧ (bget b 5 7).type = ROOK ∧ (bget b 5 7).colour = BLACK then
          score - castling_bonus else score
      if st.bkx = 2 ∧ st.bky = 7 ∧ (bget b 3 7).type = ROOK ∧ (bget b 3 7).colour = BLACK then
        score - castling_bonus else score
    else score
  -- evaluation.c 677-681: check terms
  let score := if isInCheck b .white then score - check_penalty_white else score
  let score := if isInCheck b .black then score + check_bonus_black else score
  -- evaluation.c 683-691: stalemate overrides, Black first
  let score := if isStalemate lm b .black ∧ score > 0 then -stalemate_black_penalty else score
  if isStalemate lm b .white ∧ score < 0 then stalemate_white_penalty else score

/-- `evaluateBoardPosition` (evaluation.c 176-701): White-perspective static
score; the king is always scored with `king_pst_mg`. -/
def evaluateBoardPosition (movesPlayed : Nat) (lm : Move) (b : Board) : ℚ :=
  evalWithKingPST king_pst_mg king_pst_mg_scale movesPlayed lm b

/-- Modelled from the spec: the spec sentence "Endgame mode selects
`king_pst_eg` over `king_pst_mg`" (spec.md §4.2) describes an evaluator whose
king term switches to the endgame table when `isInEndgame` holds; no such
switch exists in evaluation.c, so this comparator is built from the spec's
words for the refinement check of claim C6. -/
def evaluateBoardPositionSpecEndgameKing (movesPlayed : Nat) (lm : Move) (b : Board) : ℚ :=
  if isInEndgame b then evalWithKingPST king_pst_eg king_pst_eg_scale movesPlayed lm b
  else evalWithKingPST king_pst_mg king_pst_mg_scale movesPlayed lm b

/-!
The transposition table of evaluation.c 178-218 / 693-698: a direct-mapped
table of 2^16 `(uint64 key, double score)` entries keyed by an FNV-1a hash of
the 64 squares; key 0 marks an empty slot, and a position hashing to 0 is
stored under the sentinel key 1.  The table is modelled as a function from
index to `(key, score)` and the hit counter is threaded explicitly.
-/

def fnvOffset : Nat := 14695981039346656037

def fnvPrime : Nat := 1099511628211

/-- 2^64, the modulus of the C `uint64_t` arithmetic. -/
def U64 : Nat := 18446744073709551616

/-- One FNV-1a step: `key ^= byte; key *= FNV_PRIME;` in `uint64_t`. -/
def hashByte (k byte : Nat) : Nat := ((k ^^^ byte) * fnvPrime) % U64

/-- The three bytes a square contributes (evaluation.c 190-195):
`type + 1` (0 for empty) truncated to `uint8_t`, a colour code, and the
`hasMoved` flag. -/
def squareBytes (s : Sq) : List Nat :=
  [if s.type ≥ 0 then (s.type + 1).toNat % 256 else 0,
   if s.colour = WHITE then 1 else if s.colour = BLACK then 2 else 0,
   if s.hasMoved then 1 else 0]

/-- The 64-bit FNV-1a board hash (evaluation.c 184-202), x-major square
order. -/
def boardHash (b : Board) : Nat :=
  (((List.range 8).flatMap (fun x => (List.range 8).flatMap (fun y => squareBytes (b x y))))).foldl
    hashByte fnvOffset

def TT_SIZE : Nat := 65536

/-- `evaluateBoardPosition` with its transposition table (evaluation.c
204-218, 693-698): on a key match with a non-zero stored key the cached score
is returned and the hit counter advances; otherwise the score is computed,
and stored under the key (or the sentinel 1 when the key is 0). -/
def evalWithTT (tt : Nat → Nat × ℚ) (ttHits : Nat) (movesPlayed : Nat) (lm : Move)
    (b : Board) : ℚ × (Nat → Nat × ℚ) × Nat :=
  let key := boardHash b
  let idx := key % TT_SIZE
  let e := tt idx
  if e.1 = key ∧ e.1 ≠ 0 then (e.2, tt, ttHits + 1)
  else
    let score := evaluateBoardPosition movesPlayed lm b
    (score, fun i => if i = idx then (if key = 0 then 1 else key, score) else tt i, ttHits)

/-!
The searches.  `moveRankingRecursiveWithSequence_ThreadSafe`
(recursion_threadsafe.c 7-220) works on a `GameState`; the state components a
search node actually reads — the board, the recorded history, the halfmove
clock, and (through `evaluateBoardPosition`) the global `boardHistoryCount`
and `lastMove` — become parameters; none of them changes during recursion
except the board.  Scores are `double` → `ℚ`.  Evaluation is modelled by the
pure `evaluateBoardPosition` (the per-state transposition table only caches
these values).  The statistics counters are not modelled.
-/

/-- `struct MoveSequence` (chess.h): `count` is the list length. -/
structure MoveSeq where
  moves : List Move
  score : ℚ
deriving Repr

/-- The make step of the search loop (recursion_threadsafe.c 107-110 and
recursion.c 107-110): destination gets the piece, the source `type`/`colour`
turn to `-1`, the destination's `hasMoved` is set. -/
def applyMoveRaw (b : Board) (m : Move) : Board :=
  let b1 := bset b m.toX m.toY (bget b m.fromX m.fromY)
  let b2 := bset b1 m.fromX m.fromY { bget b1 m.fromX m.fromY with type := -1, colour := -1 }
  bset b2 m.toX m.toY { bget b2 m.toX m.toY with hasMoved := true }

/-- The full make step including the castling rook relocation
(recursion_threadsafe.c 107-129, recursion.c 107-129): when the moved piece is
a king coming from file 4, a move to file 6 relocates the rook from file 7 to
file 5, and a move to file 2 relocates the rook from file 0 to file 3. -/
def applyMoveSearch (b : Board) (m : Move) : Board :=
  let b3 := applyMoveRaw b m
  if (bget b3 m.toX m.toY).type = KING ∧ m.fromX = 4 then
    if m.toX = 6 then
      let b4 := bset b3 5 m.toY (bget b3 7 m.toY)
      let b5 := bset b4 7 m.toY { bget b4 7 m.toY with type := -1, colour := -1 }
      bset b5 5 m.toY { bget b5 5 m.toY with hasMoved := true }
    else if m.toX = 2 then
      let b4 := bset b3 3 m.toY (bget b3 0 m.toY)
      let b5 := bset b4 0 m.toY { bget b4 0 m.toY with type := -1, colour := -1 }
      bset b5 3 m.toY { bget b5 3 m.toY with hasMoved := true }
    else b3
  else b3

/-- Whether two boards hold the same position in the sense of the
repetition detectors: equal `type` and `colour` on every square
(`hasMoved` is ignored in both gamestate.c 92-93 and rules.c 308-309). -/
def boardsMatch (b1 b2 : Board) : Bool :=
  (List.range 8).all (fun x => (List.range 8).all (fun y =>
    (b1 x y).type = (b2 x y).type ∧ (b1 x y).colour = (b2 x y).colour))

/-- `countBoardRepetitions_ThreadSafe` (gamestate.c 80-104): the number of
recorded history boards matching the current board. -/
def countBoardRepetitions_ThreadSafe (hist : List Board) (b : Board) : Nat :=
  (hist.filter (fun h => boardsMatch b h)).length

/-- `countBoardRepetitions` (rules.c 293-322): 1 for the current position
plus the history matches, counted from the most recent entry and stopped at
3; the result is therefore `min (1 + matches) 3`, and 0 on empty history. -/
def countBoardRepetitionsLegacy (hist : List Board) (b : Board) : Nat :=
  if hist.length = 0 then 0
  else min (1 + (hist.filter (fun h => boardsMatch b h)).length) 3

/-- State of the move loop (recursion_threadsafe.c 94-192): current best
sequence, the running `alpha`, and whether the alpha-beta `break` fired. -/
structure SearchAcc where
  best : MoveSeq
  alpha : ℚ
  done : Bool

/-- The body of `moveRankingRecursiveWithSequence_ThreadSafe`
(recursion_threadsafe.c 7-220), structurally recursive on `fuel`, which
bounds the remaining recursion depth `maxDepth - curDepth` (the C recursion
terminates because `curDepth` grows by 1 per call); the fuel-0 fallthrough is
unreachable for the wrapper below because the move loop only runs when
`curDepth < maxDepth`.  Terminal tests in source order, then the alpha-beta
move loop with static futility pruning and the depth-0 endgame-advancement
bonus, then the first-legal-move fallback of lines 196-216. -/
def moveRankingTSGo (movesPlayed : Nat) (lm : Move)
    (hist : List Board) (halfmoveClock : Nat) (fuel : Nat) (b : Board)
    (curDepth maxDepth : Nat) (player : Colour) (alpha beta : ℚ) : MoveSeq :=
  if isCheckmate lm b .white then
    ⟨[], if player = .white then -checkmate_score else checkmate_score⟩
  else if isCheckmate lm b .black then
    ⟨[], if player = .black then -checkmate_score else checkmate_score⟩
  else if isStalemate lm b .white then
    ⟨[], if player = .white then -stalemate_score else stalemate_score⟩
  else if isStalemate lm b .black then
    ⟨[], if player = .black then -stalemate_score else stalemate_score⟩
  else if countBoardRepetitions_ThreadSafe hist b ≥ 3 then ⟨[], 0⟩
  else if halfmoveClock ≥ 100 then ⟨[], 0⟩
  else if curDepth ≥ maxDepth + (if isInEndgame b then 0 else 0) then
    let e := evaluateBoardPosition movesPlayed lm b
    ⟨[], if player = .white then e else -e⟩
  else
    match fuel with
    | 0 => ⟨[], 0⟩
    | fuel + 1 =>
      let moves := validMoves lm b player
      if moves.length = 0 then
        let e := evaluateBoardPosition movesPlayed lm b
        ⟨[], if player = .white then e else -e⟩
      else
        let acc := moves.foldl (fun (acc : SearchAcc) mv =>
          if acc.done then acc
          else
            let tempBoard := applyMoveSearch b mv
            let staticEval := evaluateBoardPosition movesPlayed lm tempBoard
            let staticScore := if player = .white then staticEval else -staticEval
            if acc.best.score > -checkmate_score ∧
                staticScore < acc.best.score - static_futility_prune_margin then acc
            else
              let child := moveRankingTSGo movesPlayed lm
                hist halfmoveClock fuel tempBoard (curDepth + 1) maxDepth player.opp
                (-beta) (-acc.alpha)
              let score := -child.score +
                (if curDepth = 0 then
                  ((evaluateEndgameAdvancement b mv.fromX mv.fromY mv.toX mv.toY player : Int) : ℚ)
                 else 0)
              let best := if score > acc.best.score then
                  ⟨(mv :: child.moves).take 224, score⟩
                else acc.best
              let alpha := if score > acc.alpha then score else acc.alpha
              ⟨best, alpha, alpha ≥ beta⟩)
          (⟨⟨[], -checkmate_score⟩, alpha, false⟩ : SearchAcc)
        if acc.best.moves.length = 0 ∧ moves.length > 0 then
          let m := moves.headD ⟨0, 0, 0, 0⟩
          let tempBoard := applyMoveRaw b m
          let e := evaluateBoardPosition movesPlayed lm tempBoard
          ⟨[m], if player = .white then e else -e⟩
        else acc.best

/-- `moveRankingRecursiveWithSequence_ThreadSafe` (recursion_threadsafe.c
7-220): the recursion above started with enough fuel for the remaining
depth. -/
def moveRankingRecursiveWithSequence_ThreadSafe (movesPlayed : Nat) (lm : Move)
    (hist : List Board) (halfmoveClock : Nat) (b : Board)
    (curDepth maxDepth : Nat) (player : Colour) (alpha beta : ℚ) : MoveSeq :=
  moveRankingTSGo movesPlayed lm hist halfmoveClock (maxDepth - curDepth) b
    curDepth maxDepth player alpha beta

/-- The body of the legacy `moveRankingRecursiveWithSequence` (recursion.c
7-184), structurally recursive on `fuel` like `moveRankingTSGo`: `int` scores
(each `evaluateBoardPosition` result is truncated to `int`), the hard-coded
constants 999999999 / 500 / 500, the legacy repetition count, and no fallback
after the loop. -/
def moveRankingLegacyGo (movesPlayed : Nat) (lm : Move)
    (hist : List Board) (halfmoveClock : Nat) (fuel : Nat) (b : Board)
    (curDepth maxDepth : Nat) (player : Colour) (alpha beta : Int) :
    List Move × Int :=
  if isCheckmate lm b .white then
    ([], if player = .white then -999999999 else 999999999)
  else if isCheckmate lm b .black then
    ([], if player = .black then -999999999 else 999999999)
  else if isStalemate lm b .white then
    ([], if player = .white then -500 else 500)
  else if isStalemate lm b .black then
    ([], if player = .black then -500 else 500)
  else if countBoardRepetitionsLegacy hist b ≥ 3 then ([], 0)
  else if halfmoveClock ≥ 100 then ([], 0)
  else if curDepth ≥ maxDepth + (if isInEndgame b then 0 else 0) then
    let e := ratTruncToInt (evaluateBoardPosition movesPlayed lm b)
    ([], if player = .white then e else -e)
  else
    match fuel with
    | 0 => ([], 0)
    | fuel + 1 =>
      let moves := validMoves lm b player
      if moves.length = 0 then
        let e := ratTruncToInt (evaluateBoardPosition movesPlayed lm b)
        ([], if player = .white then e else -e)
      else
        let acc := moves.foldl (fun (acc : (List Move × Int) × Int × Bool) mv =>
          if acc.2.2 then acc
          else
            let best := acc.1
            let alpha := acc.2.1
            let tempBoard := applyMoveSearch b mv
            let staticEval := ratTruncToInt (evaluateBoardPosition movesPlayed lm tempBoard)
            let staticScore := if player = .white then staticEval else -staticEval
            if best.2 > -900000000 ∧ staticScore < best.2 - 500 then acc
            else
              let child := moveRankingLegacyGo movesPlayed lm
                hist halfmoveClock fuel tempBoard (curDepth + 1) maxDepth player.opp
                (-beta) (-alpha)
              let score := -child.2 +
                (if curDepth = 0 then
                  evaluateEndgameAdvancement b mv.fromX mv.fromY mv.toX mv.toY player
                 else 0)
              let best := if score > best.2 then ((mv :: child.1).take 224, score) else best
              let alpha := if score > alpha then score else alpha
              (best, alpha, alpha ≥ beta))
          ((([], -999999999) : List Move × Int), alpha, false)
        acc.1

/-- The legacy `moveRankingRecursiveWithSequence` (recursion.c 7-184): the
recursion above started with enough fuel for the remaining depth. -/
def moveRankingRecursiveWithSequence (movesPlayed : Nat) (lm : Move)
    (hist : List Board) (halfmoveClock : Nat) (b : Board)
    (curDepth maxDepth : Nat) (player : Colour) (alpha beta : Int) :
    List Move × Int :=
  moveRankingLegacyGo movesPlayed lm hist halfmoveClock (maxDepth - curDepth) b
    curDepth maxDepth player alpha beta

/-!
`executeUciMove` (puzzles.c 263-334): parse a UCI-style move string and apply
it to the board without any legality check.  The board effect is modelled;
the C additionally updates the globals `lastMove` and (on a pawn move)
`halfmoveClock`, which no claim here depends on.  A NULL `uci` pointer and a
string shorter than 4 characters both fall into the length test.
-/

/-- `uci[k] - 'a'` : file letter to 0-based file. -/
def uciFile (c : Char) : Int := (c.toNat : Int) - 97

/-- `uci[k] - '1'` : rank digit to 0-based rank. -/
def uciRank (c : Char) : Int := (c.toNat : Int) - 49

/-- The board-update core of `executeUciMove` (puzzles.c 280-318): plain
move/capture with `hasMoved` set, optional promotion from the 5th character,
and the rook relocation when the piece now on the target is a king that moved
two files. -/
def execUciCore (b : Board) (fx fy tx ty : Int) (promo : Option Char) : Board :=
  let moving := bget b fx fy
  let b1 := bset b tx ty moving
  let b2 := bset b1 fx fy { bget b1 fx fy with type := -1, colour := -1 }
  let b3 := bset b2 tx ty { bget b2 tx ty with hasMoved := true }
  let b4 := match promo with
    | some pc =>
      if pc = 'q' ∨ pc = 'Q' then bset b3 tx ty { bget b3 tx ty with type := QUEEN }
      else if pc = 'r' ∨ pc = 'R' then bset b3 tx ty { bget b3 tx ty with type := ROOK }
      else if pc = 'b' ∨ pc = 'B' then bset b3 tx ty { bget b3 tx ty with type := BISHOP }
      else if pc = 'n' ∨ pc = 'N' then bset b3 tx ty { bget b3 tx ty with type := KNIGHT }
      else b3
    | none => b3
  if (bget b4 tx ty).type = KING ∧ (tx - fx = 2 ∨ fx - tx = 2) then
    if tx = 6 then
      let b5 := bset b4 5 ty (bget b4 7 ty)
      let b6 := bset b5 7 ty { bget b5 7 ty with type := -1, colour := -1 }
      bset b6 5 ty { bget b6 5 ty with hasMoved := true }
    else if tx = 2 then
      let b5 := bset b4 3 ty (bget b4 0 ty)
      let b6 := bset b5 0 ty { bget b5 0 ty with type := -1, colour := -1 }
      bset b6 3 ty { bget b6 3 ty with hasMoved := true }
    else b4
  else b4

/-- `executeUciMove` (puzzles.c 263-334): `none` models `return 0`. -/
def executeUciMove (b : Board) (uci : List Char) : Option Board :=
  match uci with
  | c0 :: c1 :: c2 :: c3 :: rest =>
    let fx := uciFile c0
    let fy := uciRank c1
    let tx := uciFile c2
    let ty := uciRank c3
    if fx < 0 ∨ fx > 7 ∨ tx < 0 ∨ tx > 7 ∨ fy < 0 ∨ fy > 7 ∨ ty < 0 ∨ ty > 7 then none
    else if (bget b fx fy).type = -1 then none
    else some (execUciCore b fx fy tx ty rest.head?)
  | _ => none

/-!
The training loop (training.c): `update_top5` (356-392) and the best-score /
acceptance handling of one `train_rewards` iteration (809-878).  The opaque
parts — a candidate's mutated weights and its puzzle score from
`test_parameters`, and the simulated-annealing coin flip — enter as inputs;
the population entry type is a type parameter standing for `RewardParams`.
-/

/-- The `insert_pos` scan of update_top5 (training.c 358-364): index of the
first entry the new score strictly beats, or the population size. -/
def insertPos (top5 : List (α × Int)) (score : Int) : Nat :=
  match top5 with
  | [] => 0
  | e :: rest => if score > e.2 then 0 else insertPos rest score + 1

/-- `update_top5` (training.c 356-392): drop the candidate when it would land
past index 4, otherwise insert it at `insert_pos`, keeping at most 5 entries
(the shift of lines 371-387 discards the old 5th entry when full). -/
def update_top5 (top5 : List (α × Int)) (params : α) (score : Int) : List (α × Int) :=
  let pos := insertPos top5 score
  if pos ≥ 5 then top5
  else (top5.take pos ++ (params, score) :: top5.drop pos).take 5

/-- One iteration of the training loop (training.c 809-878): the candidate is
accepted outright when it beats the best score and by the simulated-annealing
coin otherwise; `best_score` moves only when the candidate strictly beats it;
`update_top5` runs regardless of acceptance (line 877). -/
def train_step (st : Int × List (α × Int)) (cand : α × Int) (coin : Bool) :
    Int × List (α × Int) :=
  let accept : Bool := if cand.2 > st.1 then true else coin
  let best := if accept ∧ cand.2 > st.1 then cand.2 else st.1
  (best, update_top5 st.2 cand.1 cand.2)

/-- A training run from an initial state over a list of (candidate, coin)
inputs (the loop of training.c 809-878). -/
def train_run (init : Int × List (α × Int)) (steps : List ((α × Int) × Bool)) :
    Int × List (α × Int) :=
  steps.foldl (fun st cb => train_step st cb.1 cb.2) init

/-- Modelled from the spec: the mirror operation of the negamax-symmetry
property (spec.md §8), "swap colours and flip ranks, `has_moved` unchanged";
no such function exists in the source. -/
def mirrorSpec (b : Board) : Board := fun x y =>
  let s := b x (7 - y)
  { s with colour := if s.colour = WHITE then BLACK
                     else if s.colour = BLACK then WHITE else s.colour }

/-- Number of occupied squares; the "total number of pieces" of claim C9. -/
def pieceCount (b : Board) : ℤ :=
  ∑ x ∈ Finset.range 8, ∑ y ∈ Finset.range 8, (if (b x y).type ≠ -1 then 1 else 0)

/-!
Concrete positions used by the witnesses and counterexamples below.
-/

/-- The initial value of the global `lastMove` (rules.c 7). -/
def lm0 : Move := ⟨-1, -1, -1, -1⟩

/-- The starting position installed by `boardSetup` (rules.c 13-72). -/
def boardSetup : Board := fun x y =>
  if y = 1 then ⟨PAWN, WHITE, false⟩
  else if y = 6 then ⟨PAWN, BLACK, false⟩
  else if y = 0 then
    if x = 0 ∨ x = 7 then ⟨ROOK, WHITE, false⟩
    else if x = 1 ∨ x = 6 then ⟨KNIGHT, WHITE, false⟩
    else if x = 2 ∨ x = 5 then ⟨BISHOP, WHITE, false⟩
    else if x = 3 then ⟨QUEEN, WHITE, false⟩
    else ⟨KING, WHITE, false⟩
  else if y = 7 then
    if x = 0 ∨ x = 7 then ⟨ROOK, BLACK, false⟩
    else if x = 1 ∨ x = 6 then ⟨KNIGHT, BLACK, false⟩
    else if x = 2 ∨ x = 5 then ⟨BISHOP, BLACK, false⟩
    else if x = 3 then ⟨QUEEN, BLACK, false⟩
    else ⟨KING, BLACK, false⟩
  else emptySq

/-- White Ke1 and Rh1 unmoved, Black Rg8 and Ka8: kingside castling is
generated (e1 and f1 are not attacked) although the landing square g1 is
attacked by the rook on g8. -/
def bCastleKS : Board := fun x y =>
  if x = 4 ∧ y = 0 then ⟨KING, WHITE, false⟩
  else if x = 7 ∧ y = 0 then ⟨ROOK, WHITE, false⟩
  else if x = 6 ∧ y = 7 then ⟨ROOK, BLACK, false⟩
  else if x = 0 ∧ y = 7 then ⟨KING, BLACK, false⟩
  else emptySq

/-- White Ke1 and Ra1 unmoved, Black Rc8 and Kh8: queenside castling is
generated (e1 and d1 are not attacked) although the landing square c1 is
attacked by the rook on c8. -/
def bCastleQS : Board := fun x y =>
  if x = 4 ∧ y = 0 then ⟨KING, WHITE, false⟩
  else if x = 0 ∧ y = 0 then ⟨ROOK, WHITE, false⟩
  else if x = 2 ∧ y = 7 then ⟨ROOK, BLACK, false⟩
  else if x = 7 ∧ y = 7 then ⟨KING, BLACK, false⟩
  else emptySq

/-- White Ka1, Rb8, Rg7, Rg1, Pb7 against Black Kh8, Ra2, Ra3, Rb4: both
kings are in check with no legal escape, so `isCheckmate` holds for both
sides at once. -/
def bBothMate : Board := fun x y =>
  if x = 0 ∧ y = 0 then ⟨KING, WHITE, false⟩
  else if x = 1 ∧ y = 7 then ⟨ROOK, WHITE, true⟩
  else if x = 6 ∧ y = 6 then ⟨ROOK, WHITE, true⟩
  else if x = 6 ∧ y = 0 then ⟨ROOK, WHITE, true⟩
  else if x = 1 ∧ y = 6 then ⟨PAWN, WHITE, true⟩
  else if x = 7 ∧ y = 7 then ⟨KING, BLACK, false⟩
  else if x = 0 ∧ y = 1 then ⟨ROOK, BLACK, true⟩
  else if x = 0 ∧ y = 2 then ⟨ROOK, BLACK, true⟩
  else if x = 1 ∧ y = 3 then ⟨ROOK, BLACK, true⟩
  else emptySq

/-- White Kh1 and Pa2 against Black Kf1, Pg3, Ng4: White's only legal moves
are a2-a3 and a2-a4, and each of them is answered by the mate g3-g2#. -/
def bZugMate : Board := fun x y =>
  if x = 7 ∧ y = 0 then ⟨KING, WHITE, true⟩
  else if x = 0 ∧ y = 1 then ⟨PAWN, WHITE, false⟩
  else if x = 5 ∧ y = 0 then ⟨KING, BLACK, true⟩
  else if x = 6 ∧ y = 2 then ⟨PAWN, BLACK, true⟩
  else if x = 6 ∧ y = 3 then ⟨KNIGHT, BLACK, true⟩
  else emptySq

/-- Lone kings on e1 and e8 — a quiet position whose mirror is itself. -/
def bKingsE1E8 : Board := fun x y =>
  if x = 4 ∧ y = 0 then ⟨KING, WHITE, false⟩
  else if x = 4 ∧ y = 7 then ⟨KING, BLACK, false⟩
  else emptySq

/-- Lone kings on e4 and h8 — a quiet position with a nonzero static score. -/
def bKingsE4H8 : Board := fun x y =>
  if x = 4 ∧ y = 3 then ⟨KING, WHITE, false⟩
  else if x = 7 ∧ y = 7 then ⟨KING, BLACK, false⟩
  else emptySq

/-- White Pe5 may capture Black Pd5 en passant after d7-d5 (kings on e1/e8). -/
def bEnPassant : Board := fun x y =>
  if x = 4 ∧ y = 4 then ⟨PAWN, WHITE, true⟩
  else if x = 3 ∧ y = 4 then ⟨PAWN, BLACK, true⟩
  else if x = 4 ∧ y = 0 then ⟨KING, WHITE, false⟩
  else if x = 4 ∧ y = 7 then ⟨KING, BLACK, false⟩
  else emptySq

/-- The last move d7-d5 enabling the en-passant capture on `bEnPassant`. -/
def lmEp : Move := ⟨3, 6, 3, 4⟩

/-- The conditions rules.c 229-246 checks before emitting a kingside castle
from `(i, j)`: king unmoved and not in check, rook on file 7 of the same rank
unmoved, files 5 and 6 empty, and the king not in check on the crossed
file 5.  The landing file 6 is not among them. -/
def KingsideCastleGuards (b : Board) (c : Colour) (i j : Int) : Prop :=
  (bget b i j).hasMoved = false ∧ isInCheck b c = false ∧
  (bget b 7 j).type = ROOK ∧ (bget b 7 j).colour = c.toInt ∧
  (bget b 7 j).hasMoved = false ∧
  (bget b 5 j).type = -1 ∧ (bget b 6 j).type = -1 ∧
  isInCheck (castleProbe b i j 5 (bget b i j)) c = false

/-- The conditions rules.c 229, 247-262 checks before emitting a queenside
castle from `(i, j)`; the landing file 2 is not among them. -/
def QueensideCastleGuards (b : Board) (c : Colour) (i j : Int) : Prop :=
  (bget b i j).hasMoved = false ∧ isInCheck b c = false ∧
  (bget b 0 j).type = ROOK ∧ (bget b 0 j).colour = c.toInt ∧
  (bget b 0 j).hasMoved = false ∧
  (bget b 1 j).type = -1 ∧ (bget b 2 j).type = -1 ∧ (bget b 3 j).type = -1 ∧
  isInCheck (castleProbe b i j 3 (bget b i j)) c = false

/-!
Theorems.  The `Rat` arithmetic of the Lean core library is marked
irreducible; re-enabling unfolding locally lets `decide` evaluate the
embedded functions on concrete boards.
-/

attribute [local semireducible] Rat.add Rat.mul Rat.sub Rat.inv Nat.gcd

/-- The make step of the search differs from the simulation inside
`isMoveValid` only in `hasMoved` bits, which the check detector never reads:
their `(type, colour)` projections agree. -/
theorem tcView_applyMoveRaw_eq_simMoveM (b : Board) (m : Move)
    (hf1 : 0 ≤ m.fromX) (hf3 : 0 ≤ m.fromY) (ht1 : 0 ≤ m.toX) (ht3 : 0 ≤ m.toY) :
    tcView (applyMoveRaw b m) = tcView (simMoveM b m) := by
  funext x y
  simp only [tcView, applyMoveRaw, simMoveM, simMoveB, bget, bset]
  split_ifs <;> simp_all

/-- Check detection agrees on the search's make step and on the `isMoveValid`
simulation of the same move. -/
theorem isInCheck_applyMoveRaw (b : Board) (m : Move) (c : Colour)
    (hf1 : 0 ≤ m.fromX) (hf3 : 0 ≤ m.fromY) (ht1 : 0 ≤ m.toX) (ht3 : 0 ≤ m.toY) :
    isInCheck (applyMoveRaw b m) c = isInCheck (simMoveM b m) c := by
  unfold isInCheck
  rw [tcView_applyMoveRaw_eq_simMoveM b m hf1 hf3 ht1 ht3]

/-- Conclusions carried by every move a non-king square of the generator
emits, and by the plain steps of a king square: coordinates in range, the
`isMoveValid` guard, and (for king steps) a file shift of at most one. -/
def EmittedPlain (b : Board) (c : Colour) (i j : Int) (m : Move) : Prop :=
  m.fromX = i ∧ m.fromY = j ∧
  0 ≤ m.toX ∧ m.toX < 8 ∧ 0 ≤ m.toY ∧ m.toY < 8 ∧
  isMoveValid b m.fromX m.fromY m.toX m.toY c = true

theorem mem_pawnMovesList {lm : Move} {b : Board} {c : Colour} {i j : Int} {m : Move}
    (h : m ∈ pawnMovesList lm b c i j) (hi1 : 0 ≤ i) (hi2 : i < 8) :
    EmittedPlain b c i j m := by
  cases c <;>
  · simp only [pawnMovesList, pawnCaptureAt, List.mem_append, List.mem_ite_nil_right,
      List.mem_singleton, reduceIte,
      show (if (Colour.white = Colour.white) then (1:Int) else -1) = 1 from rfl,
      show (if (Colour.white = Colour.white) then (1:Int) else 6) = 1 from rfl,
      show (if (Colour.black = Colour.white) then (1:Int) else -1) = -1 from rfl,
      show (if (Colour.black = Colour.white) then (1:Int) else 6) = 6 from rfl] at h
    rcases h with ((⟨⟨hy1, hy2, ht, hv⟩, rfl⟩ | ⟨⟨hs, ht1, ht2, hv⟩, rfl⟩) |
        ⟨⟨hb1, hb2, hb3, hb4⟩, (⟨⟨ht, hcn, hv⟩, rfl⟩ | ⟨⟨h1, h2, h3, h4, h5, hv⟩, rfl⟩)⟩) |
      ⟨⟨hb1, hb2, hb3, hb4⟩, (⟨⟨ht, hcn, hv⟩, rfl⟩ | ⟨⟨h1, h2, h3, h4, h5, hv⟩, rfl⟩)⟩ <;>
    exact ⟨rfl, rfl, by dsimp only; omega, by dsimp only; omega, by dsimp only; omega,
      by dsimp only; omega, hv⟩

theorem mem_knightMovesList {b : Board} {c : Colour} {i j : Int} {m : Move}
    (h : m ∈ knightMovesList b c i j) :
    EmittedPlain b c i j m := by
  simp only [knightMovesList, List.mem_flatMap, List.mem_ite_nil_right,
    List.mem_singleton] at h
  obtain ⟨o, _, ⟨hb1, hb2, hb3, hb4, hcap, hv⟩, rfl⟩ := h
  exact ⟨rfl, rfl, by dsimp only; omega, by dsimp only; omega, by dsimp only; omega,
    by dsimp only; omega, hv⟩

theorem mem_slideWalk {b : Board} {c : Colour} {i j dx dy : Int} {m : Move} :
    ∀ (fuel : Nat) (ni nj : Int), m ∈ slideWalk b c i j dx dy fuel ni nj →
    EmittedPlain b c i j m := by
  intro fuel
  induction fuel with
  | zero => intro ni nj h; simp [slideWalk] at h
  | succ n ih =>
    intro ni nj h
    simp only [slideWalk] at h
    split_ifs at h with h1 h2 h3 h4
    · rcases List.mem_append.1 h with h | h
      · rcases List.mem_singleton.1 h with rfl
        exact ⟨rfl, rfl, by dsimp only; omega, by dsimp only; omega, by dsimp only; omega,
          by dsimp only; omega, h3⟩
      · exact ih (ni + dx) (nj + dy) h
    · exact ih (ni + dx) (nj + dy) (by simpa using h)
    · rcases List.mem_singleton.1 h with rfl
      exact ⟨rfl, rfl, by dsimp only; omega, by dsimp only; omega, by dsimp only; omega,
        by dsimp only; omega, h4.2⟩
    · simp at h
    · simp at h

theorem mem_sliderMovesList {b : Board} {c : Colour} {t i j : Int} {m : Move}
    (h : m ∈ sliderMovesList b c t i j) :
    EmittedPlain b c i j m := by
  simp only [sliderMovesList, List.mem_flatMap] at h
  obtain ⟨d, _, hm⟩ := h
  exact mem_slideWalk 8 (i + d.1) (j + d.2) hm

theorem mem_kingStepList {b : Board} {c : Colour} {i j : Int} {m : Move}
    (h : m ∈ kingStepList b c i j) :
    EmittedPlain b c i j m ∧ m.toX - m.fromX ≤ 1 ∧ m.fromX - m.toX ≤ 1 := by
  simp only [kingStepList, List.mem_flatMap, List.mem_ite_nil_right,
    List.mem_singleton] at h
  obtain ⟨o, ho, ⟨hb1, hb2, hb3, hb4, hcap, hv⟩, rfl⟩ := h
  have hbound : o.1 ≤ 1 ∧ -1 ≤ o.1 := by
    simp only [kingGenOffsets, List.mem_cons, List.not_mem_nil, or_false] at ho
    rcases ho with rfl | rfl | rfl | rfl | rfl | rfl | rfl | rfl <;> simp
  exact ⟨⟨rfl, rfl, by dsimp only; omega, by dsimp only; omega, by dsimp only; omega,
      by dsimp only; omega, hv⟩,
    by dsimp only; omega, by dsimp only; omega⟩

theorem mem_castleKingsideList {b : Board} {c : Colour} {i j : Int} {p : Sq} {m : Move}
    (h : m ∈ castleKingsideList b c i j p) (hp : p = bget b i j) :
    m = ⟨i, j, 6, j⟩ ∧ (bget b 7 j).type = ROOK ∧ (bget b 7 j).colour = c.toInt ∧
    (bget b 7 j).hasMoved = false ∧ (bget b 5 j).type = -1 ∧ (bget b 6 j).type = -1 ∧
    isInCheck (castleProbe b i j 5 (bget b i j)) c = false := by
  subst hp
  simp only [castleKingsideList, List.mem_ite_nil_right, List.mem_singleton] at h
  obtain ⟨⟨g1, g2, g3⟩, ⟨g4, g5⟩, g6, rfl⟩ := h
  exact ⟨rfl, g1, g2, g3, g4, g5, g6⟩

theorem mem_castleQueensideList {b : Board} {c : Colour} {i j : Int} {p : Sq} {m : Move}
    (h : m ∈ castleQueensideList b c i j p) (hp : p = bget b i j) :
    m = ⟨i, j, 2, j⟩ ∧ (bget b 0 j).type = ROOK ∧ (bget b 0 j).colour = c.toInt ∧
    (bget b 0 j).hasMoved = false ∧ (bget b 1 j).type = -1 ∧ (bget b 2 j).type = -1 ∧
    (bget b 3 j).type = -1 ∧
    isInCheck (castleProbe b i j 3 (bget b i j)) c = false := by
  subst hp
  simp only [castleQueensideList, List.mem_ite_nil_right, List.mem_singleton] at h
  obtain ⟨⟨g1, g2, g3⟩, ⟨g4, g5, g6⟩, g7, rfl⟩ := h
  exact ⟨rfl, g1, g2, g3, g4, g5, g6, g7⟩

theorem mem_squareMoves {lm : Move} {b : Board} {c : Colour} {i j : Int} {m : Move}
    (h : m ∈ squareMoves lm b c i j) (hi1 : 0 ≤ i) (hi2 : i < 8) :
    m.fromX = i ∧ m.fromY = j ∧
    ((EmittedPlain b c i j m ∧
        ((bget b i j).type = KING → m.toX - m.fromX ≤ 1 ∧ m.fromX - m.toX ≤ 1)) ∨
      ((bget b i j).type = KING ∧ (bget b i j).colour = c.toInt ∧ m.toY = j ∧
        ((m.toX = 6 ∧ KingsideCastleGuards b c i j) ∨
         (m.toX = 2 ∧ QueensideCastleGuards b c i j)))) := by
  simp only [squareMoves] at h
  split_ifs at h with hcol hpawn hknight hslider hking
  · simp at h
  · have e := mem_pawnMovesList h hi1 hi2
    exact ⟨e.1, e.2.1, Or.inl ⟨e, fun hk => absurd (hpawn.symm.trans hk) (by decide)⟩⟩
  · have e := mem_knightMovesList h
    exact ⟨e.1, e.2.1, Or.inl ⟨e, fun hk => absurd (hknight.symm.trans hk) (by decide)⟩⟩
  · have e := mem_sliderMovesList h
    refine ⟨e.1, e.2.1, Or.inl ⟨e, fun hk => ?_⟩⟩
    rcases hslider with h' | h' | h' <;> exact absurd (h'.symm.trans hk) (by decide)
  · have h' : m ∈ kingStepList b c i j ∨
        (((bget b i j).hasMoved = false ∧ isInCheck b c = false) ∧
          (m ∈ castleKingsideList b c i j (bget b i j) ∨
           m ∈ castleQueensideList b c i j (bget b i j))) := by
      simpa [kingMovesList, List.mem_ite_nil_right] using h
    rcases h' with hstep | ⟨⟨hmov, hchk⟩, hks | hqs⟩
    · have e := mem_kingStepList hstep
      exact ⟨e.1.1, e.1.2.1, Or.inl ⟨e.1, fun _ => e.2⟩⟩
    · obtain ⟨rfl, g1, g2, g3, g4, g5, g6⟩ := mem_castleKingsideList hks rfl
      exact ⟨rfl, rfl, Or.inr ⟨hking, not_not.1 hcol, rfl,
        Or.inl ⟨rfl, hmov, hchk, g1, g2, g3, g4, g5, g6⟩⟩⟩
    · obtain ⟨rfl, g1, g2, g3, g4, g5, g6, g7⟩ := mem_castleQueensideList hqs rfl
      exact ⟨rfl, rfl, Or.inr ⟨hking, not_not.1 hcol, rfl,
        Or.inr ⟨rfl, hmov, hchk, g1, g2, g3, g4, g5, g6, g7⟩⟩⟩
  · simp at h

theorem mem_validMoves_cases {lm : Move} {b : Board} {c : Colour} {m : Move}
    (h : m ∈ validMoves lm b c) :
    0 ≤ m.fromX ∧ m.fromX < 8 ∧ 0 ≤ m.fromY ∧ m.fromY < 8 ∧
    ((EmittedPlain b c m.fromX m.fromY m ∧
        ((bget b m.fromX m.fromY).type = KING →
          m.toX - m.fromX ≤ 1 ∧ m.fromX - m.toX ≤ 1)) ∨
      ((bget b m.fromX m.fromY).type = KING ∧
        (bget b m.fromX m.fromY).colour = c.toInt ∧ m.toY = m.fromY ∧
        ((m.toX = 6 ∧ KingsideCastleGuards b c m.fromX m.fromY) ∨
         (m.toX = 2 ∧ QueensideCastleGuards b c m.fromX m.fromY)))) := by
  simp only [validMoves, List.mem_flatMap, List.mem_range] at h
  obtain ⟨i, hi, j, hj, hm⟩ := h
  obtain ⟨e1, e2, hc⟩ := mem_squareMoves hm (by omega) (by exact_mod_cast Nat.cast_lt.2 hi)
  rw [e1, e2]
  rw [e1] at hc
  exact ⟨by omega, by omega, by omega, by omega, hc⟩

/-- C10: `executeUciMove` returns 0 (modelled as `none`) exactly when the
string is shorter than four characters, a parsed coordinate falls outside
files a-h or ranks 1-8, or the source square is empty; in every other case it
returns 1 with the board updated by `execUciCore` (promotion from the fifth
character and the castling rook relocation included), with no legality check
of the move. -/
theorem C10_theorem (b : Board) (uci : List Char) :
    (executeUciMove b uci = none ↔
      uci.length < 4 ∨
      ∃ c0 c1 c2 c3 rest, uci = c0 :: c1 :: c2 :: c3 :: rest ∧
        (uciFile c0 < 0 ∨ uciFile c0 > 7 ∨ uciFile c2 < 0 ∨ uciFile c2 > 7 ∨
         uciRank c1 < 0 ∨ uciRank c1 > 7 ∨ uciRank c3 < 0 ∨ uciRank c3 > 7 ∨
         (bget b (uciFile c0) (uciRank c1)).type = -1)) ∧
    (∀ c0 c1 c2 c3 rest, uci = c0 :: c1 :: c2 :: c3 :: rest →
      executeUciMove b uci ≠ none →
      executeUciMove b uci =
        some (execUciCore b (uciFile c0) (uciRank c1) (uciFile c2) (uciRank c3)
          rest.head?)) := by
  constructor
  · match uci with
    | [] => simp [executeUciMove]
    | [c0] => simp [executeUciMove]
    | [c0, c1] => simp [executeUciMove]
    | [c0, c1, c2] => simp [executeUciMove]
    | c0 :: c1 :: c2 :: c3 :: rest =>
      constructor
      · intro h
        refine Or.inr ⟨c0, c1, c2, c3, rest, rfl, ?_⟩
        simp only [executeUciMove] at h
        split_ifs at h with h1 h2
        all_goals tauto
      · intro h
        rcases h with h | ⟨d0, d1, d2, d3, rest', heq, hbad⟩
        · simp at h; omega
        · obtain ⟨rfl, rfl, rfl, rfl, rfl⟩ :
            c0 = d0 ∧ c1 = d1 ∧ c2 = d2 ∧ c3 = d3 ∧ rest = rest' := by
            simpa using heq
          simp only [executeUciMove]
          split_ifs with h1 h2
          · rfl
          · rfl
          · tauto
  · intro d0 d1 d2 d3 rest' heq hne
    subst heq
    simp only [executeUciMove] at hne ⊢
    split_ifs at hne ⊢ with h1 h2
    · tauto
    · tauto
    · rfl

/-- C4 (corrected): a castling move is emitted by `validMoves` only when the
king and chosen rook are unmoved, the files between them are empty, the king
is not in check, and the crossed square is not attacked — exactly the guards
of `KingsideCastleGuards`/`QueensideCastleGuards`; the landing square is NOT
among the tested conditions. -/
theorem C4_theorem {lm : Move} {b : Board} {c : Colour} {m : Move}
    (h : m ∈ validMoves lm b c)
    (hk : (bget b m.fromX m.fromY).type = KING)
    (h2 : m.toX - m.fromX = 2 ∨ m.fromX - m.toX = 2) :
    (m.toX = 6 ∧ m.toY = m.fromY ∧ KingsideCastleGuards b c m.fromX m.fromY) ∨
    (m.toX = 2 ∧ m.toY = m.fromY ∧ QueensideCastleGuards b c m.fromX m.fromY) := by
  obtain ⟨_, _, _, _, hc⟩ := mem_validMoves_cases h
  rcases hc with ⟨_, hlim⟩ | ⟨_, _, hty, hcs⟩
  · have := hlim hk
    rcases h2 with h2 | h2 <;> omega
  · rcases hcs with ⟨h6, hg⟩ | ⟨hq, hg⟩
    · exact Or.inl ⟨h6, hty, hg⟩
    · exact Or.inr ⟨hq, hty, hg⟩

theorem C4_witness :
    ((6 : Int) = 6 ∧ (0 : Int) = 0 ∧ KingsideCastleGuards bCastleKS .white 4 0) ∨
    ((6 : Int) = 2 ∧ (0 : Int) = 0 ∧ QueensideCastleGuards bCastleKS .white 4 0) :=
  C4_theorem
    (by decide : (⟨4, 0, 6, 0⟩ : Move) ∈ validMoves lm0 bCastleKS .white)
    (by decide) (Or.inl (by decide))

/-- C4 counterexample: on `bCastleQS` the queenside castle e1-c1 is emitted
by `validMoves` although the landing square c1 is attacked (the king placed
on c1 is in check), refuting the claim's "neither passes through nor lands
on an attacked square". -/
theorem C4_counterexample :
    (⟨4, 0, 2, 0⟩ : Move) ∈ validMoves lm0 bCastleQS .white ∧
    isInCheck (castleProbe bCastleQS 4 0 2 (bget bCastleQS 4 0)) .white = true := by
  constructor <;> decide

/-- After the raw make step, the piece standing on the destination square has
the moving piece's type, or type `-1` when source and destination coincide. -/
theorem applyMoveRaw_dest_type (b : Board) (m : Move)
    (ht1 : 0 ≤ m.toX) (ht3 : 0 ≤ m.toY) :
    (bget (applyMoveRaw b m) m.toX m.toY).type = (bget b m.fromX m.fromY).type ∨
    (bget (applyMoveRaw b m) m.toX m.toY).type = -1 := by
  simp only [applyMoveRaw, bget, bset]
  rw [Int.toNat_of_nonneg ht1, Int.toNat_of_nonneg ht3]
  split_ifs <;> simp_all

/-- A move that does not shift a king by more than one file is applied by the
plain make step: the castling rook relocation does not fire. -/
theorem applyMoveSearch_eq_raw (b : Board) (m : Move)
    (ht1 : 0 ≤ m.toX) (ht3 : 0 ≤ m.toY)
    (hnk : (bget b m.fromX m.fromY).type = KING →
      m.toX - m.fromX ≤ 1 ∧ m.fromX - m.toX ≤ 1) :
    applyMoveSearch b m = applyMoveRaw b m := by
  by_cases hA : (bget (applyMoveRaw b m) m.toX m.toY).type = KING ∧ m.fromX = 4
  · have hk : (bget b m.fromX m.fromY).type = KING := by
      rcases applyMoveRaw_dest_type b m ht1 ht3 with hd | hd
      · rw [← hd]; exact hA.1
      · rw [hd] at hA; exact absurd hA.1 (by decide)
    have hlim := hnk hk
    have h6 : ¬ m.toX = 6 := by omega
    have h2 : ¬ m.toX = 2 := by omega
    simp only [applyMoveSearch]
    rw [if_pos hA, if_neg h6, if_neg h2]
  · simp only [applyMoveSearch]
    rw [if_neg hA]

/-- C1 (corrected): a move of `validMoves` that passes the `isMoveValid`
guard and does not shift a king by two files leaves its side out of check
after the search's make step.  Castling emissions are the exception the
original claim missed: their landing square is never tested (claim C4), so
the blanket statement over every generated move fails. -/
theorem C1_theorem {lm : Move} {b : Board} {c : Colour} {m : Move}
    (h : m ∈ validMoves lm b c)
    (hv : isMoveValid b m.fromX m.fromY m.toX m.toY c = true)
    (hnk : (bget b m.fromX m.fromY).type = KING →
      m.toX - m.fromX ≤ 1 ∧ m.fromX - m.toX ≤ 1) :
    isInCheck (applyMoveSearch b m) c = false := by
  obtain ⟨hf1, hf2, hf3, hf4, hc⟩ := mem_validMoves_cases h
  have hb : 0 ≤ m.toX ∧ 0 ≤ m.toY := by
    rcases hc with ⟨⟨_, _, e3, e4, e5, e6, _⟩, _⟩ | ⟨_, _, hty, hcs⟩
    · exact ⟨e3, e5⟩
    · rcases hcs with ⟨h6, _⟩ | ⟨hq, _⟩ <;> constructor <;> omega
  rw [applyMoveSearch_eq_raw b m hb.1 hb.2 hnk]
  rw [isInCheck_applyMoveRaw b m c hf1 hf3 hb.1 hb.2]
  simp only [isMoveValid, Bool.not_eq_true'] at hv
  simpa [simMoveM] using hv

theorem C1_witness : isInCheck (applyMoveSearch bKingsE1E8 ⟨4, 0, 3, 0⟩) .white = false :=
  C1_theorem
    (by decide : (⟨4, 0, 3, 0⟩ : Move) ∈ validMoves lm0 bKingsE1E8 .white)
    (by decide) (fun _ => by decide)

/-- C1 counterexample: on `bCastleKS` the kingside castle e1-g1 is generated,
yet applying it (rook relocation included) leaves the White king on the
attacked square g1 — in check. -/
theorem C1_counterexample :
    (⟨4, 0, 6, 0⟩ : Move) ∈ validMoves lm0 bCastleKS .white ∧
    isInCheck (applyMoveSearch bCastleKS ⟨4, 0, 6, 0⟩) .white = true := by
  constructor <;> decide

theorem countP_flatMap_sum {γ : Type} (l : List γ) (f : γ → List Sq) (p : Sq → Bool) :
    ((l.flatMap f).countP p) = (l.map (fun x => (f x).countP p)).sum := by
  induction l with
  | nil => simp
  | cons a t ih => simp [List.countP_append, ih]

theorem sum_map_range (n : Nat) (g : Nat → Nat) :
    ((List.range n).map g).sum = ∑ i ∈ Finset.range n, g i := by
  induction n with
  | zero => simp
  | succ k ih =>
    rw [List.range_succ, Finset.sum_range_succ, List.map_append, List.sum_append]
    simp [ih]

theorem countP_range (n : Nat) (q : Nat → Bool) :
    (List.range n).countP q = ∑ j ∈ Finset.range n, (if q j then 1 else 0) := by
  induction n with
  | zero => simp
  | succ k ih =>
    rw [List.range_succ, Finset.sum_range_succ, List.countP_append]
    simp [ih, List.countP_cons]

/-- The double loop of `countMajorPieces` as a sum of indicators over the
64 squares. -/
theorem countMajorPieces_eq_sum (b : Board) (c : Colour) :
    countMajorPieces b c = ∑ x ∈ Finset.range 8, ∑ y ∈ Finset.range 8,
      (if (b x y).colour = c.toInt ∧ ((b x y).type = QUEEN ∨ (b x y).type = ROOK ∨
          (b x y).type = BISHOP ∨ (b x y).type = KNIGHT) then 1 else 0) := by
  unfold countMajorPieces
  rw [countP_flatMap_sum, sum_map_range]
  refine Finset.sum_congr rfl (fun x _ => ?_)
  rw [List.countP_map, countP_range]
  refine Finset.sum_congr rfl (fun y _ => ?_)
  simp [Function.comp]

/-- C6 (corrected): `isInEndgame` holds exactly when Black has at most two
knight/bishop/rook/queen pieces; but endgame mode does not change the king
table — `evaluateBoardPosition` scores kings with `king_pst_mg`
unconditionally. -/
theorem C6_theorem (b : Board) :
    (isInEndgame b = true ↔
      (∑ x ∈ Finset.range 8, ∑ y ∈ Finset.range 8,
        (if (b x y).colour = BLACK ∧ ((b x y).type = KNIGHT ∨ (b x y).type = BISHOP ∨
            (b x y).type = ROOK ∨ (b x y).type = QUEEN) then 1 else 0)) ≤ 2) ∧
    (∀ movesPlayed lm, evaluateBoardPosition movesPlayed lm b =
      evalWithKingPST king_pst_mg king_pst_mg_scale movesPlayed lm b) := by
  constructor
  · have e := countMajorPieces_eq_sum b .black
    have e2 : ∑ x ∈ Finset.range 8, ∑ y ∈ Finset.range 8,
        (if (b x y).colour = Colour.black.toInt ∧ ((b x y).type = QUEEN ∨ (b x y).type = ROOK ∨
            (b x y).type = BISHOP ∨ (b x y).type = KNIGHT) then 1 else 0) =
        ∑ x ∈ Finset.range 8, ∑ y ∈ Finset.range 8,
        (if (b x y).colour = BLACK ∧ ((b x y).type = KNIGHT ∨ (b x y).type = BISHOP ∨
            (b x y).type = ROOK ∨ (b x y).type = QUEEN) then 1 else 0) := by
      refine Finset.sum_congr rfl (fun x _ => Finset.sum_congr rfl (fun y _ => ?_))
      refine if_congr ?_ rfl rfl
      constructor <;> intro h <;> exact ⟨h.1, by tauto⟩
    simp only [isInEndgame, decide_eq_true_eq, e, e2]
  · intro movesPlayed lm
    rfl

/-- C6 counterexample: `bKingsE4H8` is an endgame position, yet the evaluator
does not switch the king table: its score differs from the spec-modelled
evaluator that selects `king_pst_eg` in endgame mode. -/
theorem C6_counterexample :
    isInEndgame bKingsE4H8 = true ∧
    evaluateBoardPosition 0 lm0 bKingsE4H8 ≠
      evaluateBoardPositionSpecEndgameKing 0 lm0 bKingsE4H8 := by
  constructor <;> decide

theorem insertPos_cons_pos {α : Type} (a : α × Int) (rest : List (α × Int)) (s : Int)
    (h : s > a.2) : insertPos (a :: rest) s = 0 := by
  simp [insertPos, h]

theorem insertPos_cons_neg {α : Type} (a : α × Int) (rest : List (α × Int)) (s : Int)
    (h : ¬ s > a.2) : insertPos (a :: rest) s = insertPos rest s + 1 := by
  simp [insertPos, h]

theorem insertPos_lt_of_mem {α : Type} (t : List (α × Int)) (s : Int)
    (h : ∃ e ∈ t, e.2 < s) : insertPos t s < t.length := by
  induction t with
  | nil => simp at h
  | cons a rest ih =>
    by_cases hs : s > a.2
    · simp [insertPos_cons_pos a rest s hs]
    · obtain ⟨e, he, hlt⟩ := h
      rcases List.mem_cons.1 he with rfl | he
      · omega
      · have := ih ⟨e, he, hlt⟩
        rw [insertPos_cons_neg a rest s hs, List.length_cons]
        omega

theorem chain'_insertPos {α : Type} (t : List (α × Int)) (p : α) (s : Int)
    (h : List.Chain' (fun a b : α × Int => b.2 ≤ a.2) t) :
    List.Chain' (fun a b : α × Int => b.2 ≤ a.2)
      (t.take (insertPos t s) ++ (p, s) :: t.drop (insertPos t s)) := by
  induction t with
  | nil => simp [insertPos]
  | cons a rest ih =>
    by_cases hs : s > a.2
    · rw [insertPos_cons_pos a rest s hs, List.take_zero, List.drop_zero, List.nil_append]
      refine List.chain'_cons'.mpr ⟨?_, h⟩
      intro y hy
      simp at hy
      subst hy
      omega
    · rw [insertPos_cons_neg a rest s hs, List.take_succ_cons, List.drop_succ_cons,
        List.cons_append]
      refine List.chain'_cons'.mpr ⟨?_, ih h.tail⟩
      intro y hy
      cases rest with
      | nil =>
        simp [insertPos] at hy
        subst hy
        omega
      | cons b rest' =>
        by_cases hb : s > b.2
        · rw [insertPos_cons_pos b rest' s hb, List.take_zero, List.nil_append,
            List.head?_cons] at hy
          simp at hy
          subst hy
          omega
        · rw [insertPos_cons_neg b rest' s hb, List.take_succ_cons, List.cons_append,
            List.head?_cons] at hy
          simp at hy
          subst hy
          exact (List.chain'_cons'.1 h).1 b (by simp)

theorem mem_of_getLast_opt {β : Type} : ∀ {l : List β} {e : β}, l.getLast? = some e → e ∈ l := by
  intro l
  induction l with
  | nil => intro e h; simp at h
  | cons a t ih =>
    intro e h
    cases t with
    | nil => simp [List.getLast?] at h; simp [h]
    | cons b t' =>
      rw [List.getLast?_cons_cons] at h
      exact List.mem_cons_of_mem _ (ih h)

/-- C8: over a training run the recorded best score never regresses (it moves
only when a candidate strictly beats it), `update_top5` keeps the population
sorted by score descending with at most five entries, and a candidate whose
score beats the current fifth-best entry is inserted. -/
theorem C8_theorem {α : Type} :
    (∀ (st : Int × List (α × Int)) (cand : α × Int) (coin : Bool),
      st.1 ≤ (train_step st cand coin).1) ∧
    (∀ (init : Int × List (α × Int)) (steps : List ((α × Int) × Bool))
      (s : (α × Int) × Bool),
      (train_run init steps).1 ≤ (train_run init (steps ++ [s])).1) ∧
    (∀ (t : List (α × Int)) (p : α) (s : Int),
      t.length ≤ 5 → (update_top5 t p s).length ≤ 5) ∧
    (∀ (t : List (α × Int)) (p : α) (s : Int),
      List.Chain' (fun a b : α × Int => b.2 ≤ a.2) t →
      List.Chain' (fun a b : α × Int => b.2 ≤ a.2) (update_top5 t p s)) ∧
    (∀ (t : List (α × Int)) (p : α) (s : Int) (e : α × Int),
      t.length = 5 → t.getLast? = some e → e.2 < s →
      (p, s) ∈ update_top5 t p s) := by
  have hstep : ∀ (st : Int × List (α × Int)) (cand : α × Int) (coin : Bool),
      st.1 ≤ (train_step st cand coin).1 := by
    intro st cand coin
    simp only [train_step]
    split_ifs <;> omega
  refine ⟨hstep, ?_, ?_, ?_, ?_⟩
  · intro init steps s
    rw [train_run, train_run, List.foldl_append]
    exact hstep _ _ _
  · intro t p s hlen
    simp only [update_top5]
    split_ifs with hpos
    · exact hlen
    · exact le_trans (List.length_take_le 5 _) (le_refl 5)
  · intro t p s hch
    simp only [update_top5]
    split_ifs with hpos
    · exact hch
    · exact (chain'_insertPos t p s hch).take 5
  · intro t p s e hlen hlast hgt
    have hmem : e ∈ t := mem_of_getLast_opt hlast
    have hpos : insertPos t s < 5 := by
      have := insertPos_lt_of_mem t s ⟨e, hmem, hgt⟩
      omega
    simp only [update_top5]
    rw [if_neg (by omega)]
    have hl1 : (t.take (insertPos t s)).length = insertPos t s := by
      rw [List.length_take]
      omega
    rw [List.take_append_eq_append_take, hl1]
    refine List.mem_append.mpr (Or.inr ?_)
    have h5 : 5 - insertPos t s = (5 - insertPos t s - 1) + 1 := by omega
    rw [h5, List.take_succ_cons]
    exact List.mem_cons_self _ _

theorem evalWithTT_hit (tt : Nat → Nat × ℚ) (ttHits movesPlayed : Nat) (lm : Move)
    (b : Board) (h1 : (tt (boardHash b % TT_SIZE)).1 = boardHash b)
    (h2 : (tt (boardHash b % TT_SIZE)).1 ≠ 0) :
    evalWithTT tt ttHits movesPlayed lm b =
      ((tt (boardHash b % TT_SIZE)).2, tt, ttHits + 1) := by
  simp only [evalWithTT]
  rw [if_pos ⟨h1, h2⟩]

theorem evalWithTT_miss (tt : Nat → Nat × ℚ) (ttHits movesPlayed : Nat) (lm : Move)
    (b : Board)
    (h : ¬((tt (boardHash b % TT_SIZE)).1 = boardHash b ∧
        (tt (boardHash b % TT_SIZE)).1 ≠ 0)) :
    evalWithTT tt ttHits movesPlayed lm b =
      (evaluateBoardPosition movesPlayed lm b,
        fun i => if i = boardHash b % TT_SIZE then
          (if boardHash b = 0 then 1 else boardHash b,
            evaluateBoardPosition movesPlayed lm b)
        else tt i, ttHits) := by
  simp only [evalWithTT]
  rw [if_neg h]

/-- C7: a second evaluation of the same board through the transposition table
returns the same score; when the board's hash is non-zero (the claim's own
sentinel case split) the second call is a table hit and advances the hit
counter by exactly one; the table never gains a zero key — a zero-hash board
is stored under the sentinel key 1. -/
theorem C7_theorem (tt : Nat → Nat × ℚ) (ttHits movesPlayed : Nat) (lm : Move)
    (b : Board) :
    ((evalWithTT (evalWithTT tt ttHits movesPlayed lm b).2.1
        (evalWithTT tt ttHits movesPlayed lm b).2.2 movesPlayed lm b).1 =
      (evalWithTT tt ttHits movesPlayed lm b).1) ∧
    (boardHash b ≠ 0 →
      (evalWithTT (evalWithTT tt ttHits movesPlayed lm b).2.1
        (evalWithTT tt ttHits movesPlayed lm b).2.2 movesPlayed lm b).2.2 =
      (evalWithTT tt ttHits movesPlayed lm b).2.2 + 1) ∧
    (∀ i, ((evalWithTT tt ttHits movesPlayed lm b).2.1 i).1 ≠ 0 ∨
      (evalWithTT tt ttHits movesPlayed lm b).2.1 i = tt i) ∧
    (boardHash b = 0 →
      ((evalWithTT tt ttHits movesPlayed lm b).2.1 (0 % TT_SIZE)).1 = 1) := by
  by_cases hhit : (tt (boardHash b % TT_SIZE)).1 = boardHash b ∧
      (tt (boardHash b % TT_SIZE)).1 ≠ 0
  · rw [evalWithTT_hit tt ttHits movesPlayed lm b hhit.1 hhit.2]
    rw [evalWithTT_hit tt (ttHits + 1) movesPlayed lm b hhit.1 hhit.2]
    refine ⟨rfl, fun _ => rfl, fun i => Or.inr rfl, fun h0 => ?_⟩
    exact absurd (hhit.1.trans h0) hhit.2
  · rw [evalWithTT_miss tt ttHits movesPlayed lm b hhit]
    by_cases h0 : boardHash b = 0
    · rw [evalWithTT_miss _ ttHits movesPlayed lm b
        (by simp only [if_pos rfl, h0]; simp)]
      refine ⟨rfl, fun hk => absurd h0 hk, fun i => ?_, fun _ => by simp [h0]⟩
      by_cases hi : i = boardHash b % TT_SIZE
      · exact Or.inl (by simp [hi, h0])
      · exact Or.inr (by simp [hi])
    · rw [evalWithTT_hit _ ttHits movesPlayed lm b (by simp [h0]) (by simp [h0])]
      refine ⟨by simp, fun _ => rfl, fun i => ?_, fun hk => absurd hk h0⟩
      by_cases hi : i = boardHash b % TT_SIZE
      · exact Or.inl (by simp [hi, h0])
      · exact Or.inr (by simp [hi])

set_option maxHeartbeats 1600000 in
theorem tsGo_case1 (movesPlayed : Nat) (lm : Move) (hist : List Board)
    (hz fuel : Nat) (b : Board) (curDepth maxDepth : Nat) (player : Colour)
    (alpha beta : ℚ)
    (h1 : isCheckmate lm b .white = true) :
    moveRankingTSGo movesPlayed lm hist hz fuel b curDepth maxDepth player alpha beta =
      ⟨[], if player = .white then -checkmate_score else checkmate_score⟩ := by
  rw [moveRankingTSGo.eq_def, if_pos h1]

set_option maxHeartbeats 1600000 in
theorem tsGo_case2 (movesPlayed : Nat) (lm : Move) (hist : List Board)
    (hz fuel : Nat) (b : Board) (curDepth maxDepth : Nat) (player : Colour)
    (alpha beta : ℚ)
    (h1 : isCheckmate lm b .white = false)
    (h2 : isCheckmate lm b .black = true) :
    moveRankingTSGo movesPlayed lm hist hz fuel b curDepth maxDepth player alpha beta =
      ⟨[], if player = .black then -checkmate_score else checkmate_score⟩ := by
  rw [moveRankingTSGo.eq_def, if_neg (by simp [h1]), if_pos h2]

set_option maxHeartbeats 1600000 in
theorem tsGo_case3 (movesPlayed : Nat) (lm : Move) (hist : List Board)
    (hz fuel : Nat) (b : Board) (curDepth maxDepth : Nat) (player : Colour)
    (alpha beta : ℚ)
    (h1 : isCheckmate lm b .white = false)
    (h2 : isCheckmate lm b .black = false)
    (h3 : isStalemate lm b .white = true) :
    moveRankingTSGo movesPlayed lm hist hz fuel b curDepth maxDepth player alpha beta =
      ⟨[], if player = .white then -stalemate_score else stalemate_score⟩ := by
  rw [moveRankingTSGo.eq_def, if_neg (by simp [h1]), if_neg (by simp [h2]), if_pos h3]

set_option maxHeartbeats 1600000 in
theorem tsGo_case4 (movesPlayed : Nat) (lm : Move) (hist : List Board)
    (hz fuel : Nat) (b : Board) (curDepth maxDepth : Nat) (player : Colour)
    (alpha beta : ℚ)
    (h1 : isCheckmate lm b .white = false)
    (h2 : isCheckmate lm b .black = false)
    (h3 : isStalemate lm b .white = false)
    (h4 : isStalemate lm b .black = true) :
    moveRankingTSGo movesPlayed lm hist hz fuel b curDepth maxDepth player alpha beta =
      ⟨[], if player = .black then -stalemate_score else stalemate_score⟩ := by
  rw [moveRankingTSGo.eq_def, if_neg (by simp [h1]), if_neg (by simp [h2]), if_neg (by simp [h3]), if_pos h4]

set_option maxHeartbeats 1600000 in
theorem tsGo_case5 (movesPlayed : Nat) (lm : Move) (hist : List Board)
    (hz fuel : Nat) (b : Board) (curDepth maxDepth : Nat) (player : Colour)
    (alpha beta : ℚ)
    (h1 : isCheckmate lm b .white = false)
    (h2 : isCheckmate lm b .black = false)
    (h3 : isStalemate lm b .white = false)
    (h4 : isStalemate lm b .black = false)
    (h5 : countBoardRepetitions_ThreadSafe hist b ≥ 3) :
    moveRankingTSGo movesPlayed lm hist hz fuel b curDepth maxDepth player alpha beta =
      ⟨[], 0⟩ := by
  rw [moveRankingTSGo.eq_def, if_neg (by simp [h1]), if_neg (by simp [h2]), if_neg (by simp [h3]), if_neg (by simp [h4]), if_pos h5]

set_option maxHeartbeats 1600000 in
theorem tsGo_case6 (movesPlayed : Nat) (lm : Move) (hist : List Board)
    (hz fuel : Nat) (b : Board) (curDepth maxDepth : Nat) (player : Colour)
    (alpha beta : ℚ)
    (h1 : isCheckmate lm b .white = false)
    (h2 : isCheckmate lm b .black = false)
    (h3 : isStalemate lm b .white = false)
    (h4 : isStalemate lm b .black = false)
    (h5 : ¬(countBoardRepetitions_ThreadSafe hist b ≥ 3))
    (h6 : hz ≥ 100) :
    moveRankingTSGo movesPlayed lm hist hz fuel b curDepth maxDepth player alpha beta =
      ⟨[], 0⟩ := by
  rw [moveRankingTSGo.eq_def, if_neg (by simp [h1]), if_neg (by simp [h2]), if_neg (by simp [h3]), if_neg (by simp [h4]), if_neg h5, if_pos h6]

set_option maxHeartbeats 1600000 in
theorem tsGo_case7 (movesPlayed : Nat) (lm : Move) (hist : List Board)
    (hz fuel : Nat) (b : Board) (curDepth maxDepth : Nat) (player : Colour)
    (alpha beta : ℚ)
    (h1 : isCheckmate lm b .white = false)
    (h2 : isCheckmate lm b .black = false)
    (h3 : isStalemate lm b .white = false)
    (h4 : isStalemate lm b .black = false)
    (h5 : ¬(countBoardRepetitions_ThreadSafe hist b ≥ 3))
    (h6 : ¬(hz ≥ 100))
    (h7 : curDepth ≥ maxDepth) :
    moveRankingTSGo movesPlayed lm hist hz fuel b curDepth maxDepth player alpha beta =
      ⟨[], if player = .white then evaluateBoardPosition movesPlayed lm b else -evaluateBoardPosition movesPlayed lm b⟩ := by
  rw [moveRankingTSGo.eq_def, if_neg (by simp [h1]), if_neg (by simp [h2]), if_neg (by simp [h3]), if_neg (by simp [h4]), if_neg h5, if_neg h6, ite_self, Nat.add_zero, if_pos h7]

set_option maxHeartbeats 1600000 in
theorem legacyGo_case1 (movesPlayed : Nat) (lm : Move) (hist : List Board)
    (hz fuel : Nat) (b : Board) (curDepth maxDepth : Nat) (player : Colour)
    (alpha beta : Int)
    (h1 : isCheckmate lm b .white = true) :
    moveRankingLegacyGo movesPlayed lm hist hz fuel b curDepth maxDepth player alpha beta =
      ([], if player = .white then -999999999 else 999999999) := by
  rw [moveRankingLegacyGo.eq_def, if_pos h1]

set_option maxHeartbeats 1600000 in
theorem legacyGo_case2 (movesPlayed : Nat) (lm : Move) (hist : List Board)
    (hz fuel : Nat) (b : Board) (curDepth maxDepth : Nat) (player : Colour)
    (alpha beta : Int)
    (h1 : isCheckmate lm b .white = false)
    (h2 : isCheckmate lm b .black = true) :
    moveRankingLegacyGo movesPlayed lm hist hz fuel b curDepth maxDepth player alpha beta =
      ([], if player = .black then -999999999 else 999999999) := by
  rw [moveRankingLegacyGo.eq_def, if_neg (by simp [h1]), if_pos h2]

set_option maxHeartbeats 1600000 in
theorem legacyGo_case3 (movesPlayed : Nat) (lm : Move) (hist : List Board)
    (hz fuel : Nat) (b : Board) (curDepth maxDepth : Nat) (player : Colour)
    (alpha beta : Int)
    (h1 : isCheckmate lm b .white = false)
    (h2 : isCheckmate lm b .black = false)
    (h3 : isStalemate lm b .white = true) :
    moveRankingLegacyGo movesPlayed lm hist hz fuel b curDepth maxDepth player alpha beta =
      ([], if player = .white then -500 else 500) := by
  rw [moveRankingLegacyGo.eq_def, if_neg (by simp [h1]), if_neg (by simp [h2]), if_pos h3]

set_option maxHeartbeats 1600000 in
theorem legacyGo_case4 (movesPlayed : Nat) (lm : Move) (hist : List Board)
    (hz fuel : Nat) (b : Board) (curDepth maxDepth : Nat) (player : Colour)
    (alpha beta : Int)
    (h1 : isCheckmate lm b .white = false)
    (h2 : isCheckmate lm b .black = false)
    (h3 : isStalemate lm b .white = false)
    (h4 : isStalemate lm b .black = true) :
    moveRankingLegacyGo movesPlayed lm hist hz fuel b curDepth maxDepth player alpha beta =
      ([], if player = .black then -500 else 500) := by
  rw [moveRankingLegacyGo.eq_def, if_neg (by simp [h1]), if_neg (by simp [h2]), if_neg (by simp [h3]), if_pos h4]

set_option maxHeartbeats 1600000 in
theorem legacyGo_case5 (movesPlayed : Nat) (lm : Move) (hist : List Board)
    (hz fuel : Nat) (b : Board) (curDepth maxDepth : Nat) (player : Colour)
    (alpha beta : Int)
    (h1 : isCheckmate lm b .white = false)
    (h2 : isCheckmate lm b .black = false)
    (h3 : isStalemate lm b .white = false)
    (h4 : isStalemate lm b .black = false)
    (h5 : countBoardRepetitionsLegacy hist b ≥ 3) :
    moveRankingLegacyGo movesPlayed lm hist hz fuel b curDepth maxDepth player alpha beta =
      ([], 0) := by
  rw [moveRankingLegacyGo.eq_def, if_neg (by simp [h1]), if_neg (by simp [h2]), if_neg (by simp [h3]), if_neg (by simp [h4]), if_pos h5]

set_option maxHeartbeats 1600000 in
theorem legacyGo_case6 (movesPlayed : Nat) (lm : Move) (hist : List Board)
    (hz fuel : Nat) (b : Board) (curDepth maxDepth : Nat) (player : Colour)
    (alpha beta : Int)
    (h1 : isCheckmate lm b .white = false)
    (h2 : isCheckmate lm b .black = false)
    (h3 : isStalemate lm b .white = false)
    (h4 : isStalemate lm b .black = false)
    (h5 : ¬(countBoardRepetitionsLegacy hist b ≥ 3))
    (h6 : hz ≥ 100) :
    moveRankingLegacyGo movesPlayed lm hist hz fuel b curDepth maxDepth player alpha beta =
      ([], 0) := by
  rw [moveRankingLegacyGo.eq_def, if_neg (by simp [h1]), if_neg (by simp [h2]), if_neg (by simp [h3]), if_neg (by simp [h4]), if_neg h5, if_pos h6]

set_option maxHeartbeats 1600000 in
theorem legacyGo_case7 (movesPlayed : Nat) (lm : Move) (hist : List Board)
    (hz fuel : Nat) (b : Board) (curDepth maxDepth : Nat) (player : Colour)
    (alpha beta : Int)
    (h1 : isCheckmate lm b .white = false)
    (h2 : isCheckmate lm b .black = false)
    (h3 : isStalemate lm b .white = false)
    (h4 : isStalemate lm b .black = false)
    (h5 : ¬(countBoardRepetitionsLegacy hist b ≥ 3))
    (h6 : ¬(hz ≥ 100))
    (h7 : curDepth ≥ maxDepth) :
    moveRankingLegacyGo movesPlayed lm hist hz fuel b curDepth maxDepth player alpha beta =
      ([], if player = .white then ratTruncToInt (evaluateBoardPosition movesPlayed lm b) else -ratTruncToInt (evaluateBoardPosition movesPlayed lm b)) := by
  rw [moveRankingLegacyGo.eq_def, if_neg (by simp [h1]), if_neg (by simp [h2]), if_neg (by simp [h3]), if_neg (by simp [h4]), if_neg h5, if_neg h6, ite_self, Nat.add_zero, if_pos h7]

/-- C2 (corrected): the terminal tests of both searches run in source order —
White's checkmate before Black's, checkmates before stalemates, then
threefold repetition, the halfmove clock, and the depth cutoff with
`evaluate` for White and `-evaluate` for Black.  The sign of a mate score
follows the FIRST test that fires, not "the mated side": with both kings
checkmated the White test wins, so a mated Black player still receives
`+checkmate_score`. -/
theorem C2_theorem (movesPlayed : Nat) (lm : Move) (hist : List Board)
    (hz : Nat) (b : Board) (curDepth maxDepth : Nat) (player : Colour)
    (alpha beta : ℚ) (alphaL betaL : Int) :
    (isCheckmate lm b .white = true →
      moveRankingRecursiveWithSequence_ThreadSafe movesPlayed lm hist hz b
        curDepth maxDepth player alpha beta =
      ⟨[], if player = .white then -checkmate_score else checkmate_score⟩) ∧
    (isCheckmate lm b .white = false → isCheckmate lm b .black = true →
      moveRankingRecursiveWithSequence_ThreadSafe movesPlayed lm hist hz b
        curDepth maxDepth player alpha beta =
      ⟨[], if player = .black then -checkmate_score else checkmate_score⟩) ∧
    (isCheckmate lm b .white = false → isCheckmate lm b .black = false →
      isStalemate lm b .white = true →
      moveRankingRecursiveWithSequence_ThreadSafe movesPlayed lm hist hz b
        curDepth maxDepth player alpha beta =
      ⟨[], if player = .white then -stalemate_score else stalemate_score⟩) ∧
    (isCheckmate lm b .white = false → isCheckmate lm b .black = false →
      isStalemate lm b .white = false → isStalemate lm b .black = true →
      moveRankingRecursiveWithSequence_ThreadSafe movesPlayed lm hist hz b
        curDepth maxDepth player alpha beta =
      ⟨[], if player = .black then -stalemate_score else stalemate_score⟩) ∧
    (isCheckmate lm b .white = false → isCheckmate lm b .black = false →
      isStalemate lm b .white = false → isStalemate lm b .black = false →
      countBoardRepetitions_ThreadSafe hist b ≥ 3 →
      moveRankingRecursiveWithSequence_ThreadSafe movesPlayed lm hist hz b
        curDepth maxDepth player alpha beta = ⟨[], 0⟩) ∧
    (isCheckmate lm b .white = false → isCheckmate lm b .black = false →
      isStalemate lm b .white = false → isStalemate lm b .black = false →
      ¬(countBoardRepetitions_ThreadSafe hist b ≥ 3) → hz ≥ 100 →
      moveRankingRecursiveWithSequence_ThreadSafe movesPlayed lm hist hz b
        curDepth maxDepth player alpha beta = ⟨[], 0⟩) ∧
    (isCheckmate lm b .white = false → isCheckmate lm b .black = false →
      isStalemate lm b .white = false → isStalemate lm b .black = false →
      ¬(countBoardRepetitions_ThreadSafe hist b ≥ 3) → ¬(hz ≥ 100) →
      curDepth ≥ maxDepth →
      moveRankingRecursiveWithSequence_ThreadSafe movesPlayed lm hist hz b
        curDepth maxDepth player alpha beta =
      ⟨[], if player = .white then evaluateBoardPosition movesPlayed lm b
           else -evaluateBoardPosition movesPlayed lm b⟩) ∧
    (isCheckmate lm b .white = true →
      moveRankingRecursiveWithSequence movesPlayed lm hist hz b
        curDepth maxDepth player alphaL betaL =
      ([], if player = .white then -999999999 else 999999999)) ∧
    (isCheckmate lm b .white = false → isCheckmate lm b .black = true →
      moveRankingRecursiveWithSequence movesPlayed lm hist hz b
        curDepth maxDepth player alphaL betaL =
      ([], if player = .black then -999999999 else 999999999)) ∧
    (isCheckmate lm b .white = false → isCheckmate lm b .black = false →
      isStalemate lm b .white = true →
      moveRankingRecursiveWithSequence movesPlayed lm hist hz b
        curDepth maxDepth player alphaL betaL =
      ([], if player = .white then -500 else 500)) ∧
    (isCheckmate lm b .white = false → isCheckmate lm b .black = false →
      isStalemate lm b .white = false → isStalemate lm b .black = true →
      moveRankingRecursiveWithSequence movesPlayed lm hist hz b
        curDepth maxDepth player alphaL betaL =
      ([], if player = .black then -500 else 500)) ∧
    (isCheckmate lm b .white = false → isCheckmate lm b .black = false →
      isStalemate lm b .white = false → isStalemate lm b .black = false →
      countBoardRepetitionsLegacy hist b ≥ 3 →
      moveRankingRecursiveWithSequence movesPlayed lm hist hz b
        curDepth maxDepth player alphaL betaL = ([], 0)) ∧
    (isCheckmate lm b .white = false → isCheckmate lm b .black = false →
      isStalemate lm b .white = false → isStalemate lm b .black = false →
      ¬(countBoardRepetitionsLegacy hist b ≥ 3) → hz ≥ 100 →
      moveRankingRecursiveWithSequence movesPlayed lm hist hz b
        curDepth maxDepth player alphaL betaL = ([], 0)) ∧
    (isCheckmate lm b .white = false → isCheckmate lm b .black = false →
      isStalemate lm b .white = false → isStalemate lm b .black = false →
      ¬(countBoardRepetitionsLegacy hist b ≥ 3) → ¬(hz ≥ 100) →
      curDepth ≥ maxDepth →
      moveRankingRecursiveWithSequence movesPlayed lm hist hz b
        curDepth maxDepth player alphaL betaL =
      ([], if player = .white then ratTruncToInt (evaluateBoardPosition movesPlayed lm b)
           else -ratTruncToInt (evaluateBoardPosition movesPlayed lm b))) := by
  refine ⟨?_, ?_, ?_, ?_, ?_, ?_, ?_, ?_, ?_, ?_, ?_, ?_, ?_, ?_⟩
  · intro h1
    exact tsGo_case1 movesPlayed lm hist hz (maxDepth - curDepth) b curDepth maxDepth player alpha beta h1
  · intro h1 h2
    exact tsGo_case2 movesPlayed lm hist hz (maxDepth - curDepth) b curDepth maxDepth player alpha beta h1 h2
  · intro h1 h2 h3
    exact tsGo_case3 movesPlayed lm hist hz (maxDepth - curDepth) b curDepth maxDepth player alpha beta h1 h2 h3
  · intro h1 h2 h3 h4
    exact tsGo_case4 movesPlayed lm hist hz (maxDepth - curDepth) b curDepth maxDepth player alpha beta h1 h2 h3 h4
  · intro h1 h2 h3 h4 h5
    exact tsGo_case5 movesPlayed lm hist hz (maxDepth - curDepth) b curDepth maxDepth player alpha beta h1 h2 h3 h4 h5
  · intro h1 h2 h3 h4 h5 h6
    exact tsGo_case6 movesPlayed lm hist hz (maxDepth - curDepth) b curDepth maxDepth player alpha beta h1 h2 h3 h4 h5 h6
  · intro h1 h2 h3 h4 h5 h6 h7
    exact tsGo_case7 movesPlayed lm hist hz (maxDepth - curDepth) b curDepth maxDepth player alpha beta h1 h2 h3 h4 h5 h6 h7
  · intro h1
    exact legacyGo_case1 movesPlayed lm hist hz (maxDepth - curDepth) b curDepth maxDepth player alphaL betaL h1
  · intro h1 h2
    exact legacyGo_case2 movesPlayed lm hist hz (maxDepth - curDepth) b curDepth maxDepth player alphaL betaL h1 h2
  · intro h1 h2 h3
    exact legacyGo_case3 movesPlayed lm hist hz (maxDepth - curDepth) b curDepth maxDepth player alphaL betaL h1 h2 h3
  · intro h1 h2 h3 h4
    exact legacyGo_case4 movesPlayed lm hist hz (maxDepth - curDepth) b curDepth maxDepth player alphaL betaL h1 h2 h3 h4
  · intro h1 h2 h3 h4 h5
    exact legacyGo_case5 movesPlayed lm hist hz (maxDepth - curDepth) b curDepth maxDepth player alphaL betaL h1 h2 h3 h4 h5
  · intro h1 h2 h3 h4 h5 h6
    exact legacyGo_case6 movesPlayed lm hist hz (maxDepth - curDepth) b curDepth maxDepth player alphaL betaL h1 h2 h3 h4 h5 h6
  · intro h1 h2 h3 h4 h5 h6 h7
    exact legacyGo_case7 movesPlayed lm hist hz (maxDepth - curDepth) b curDepth maxDepth player alphaL betaL h1 h2 h3 h4 h5 h6 h7

/-- C2 counterexample: on `bBothMate` both kings are checkmated; with
`player = Black` the search returns `+checkmate_score` although the player's
own side is mated, because the White test fires first. -/
theorem C2_counterexample :
    isCheckmate lm0 bBothMate .white = true ∧
    isCheckmate lm0 bBothMate .black = true ∧
    (moveRankingRecursiveWithSequence_ThreadSafe 0 lm0 [] 0 bBothMate 0 1 .black
      (-checkmate_score) checkmate_score).score = checkmate_score := by
  refine ⟨by decide, by decide, by decide⟩

theorem fallback_len (a : SearchAcc) (ms : List Move) (x : MoveSeq)
    (hms : ms.length ≠ 0) (hx : 1 ≤ x.moves.length) :
    1 ≤ (if a.best.moves.length = 0 ∧ ms.length > 0 then x else a.best).moves.length := by
  split_ifs with h
  · exact hx
  · rcases Nat.eq_zero_or_pos a.best.moves.length with h0 | h0
    · exact absurd ⟨h0, Nat.pos_of_ne_zero hms⟩ h
    · exact h0

/-- C3 (corrected for the legacy file): the thread-safe search never returns
an empty move list from a non-terminal position with a legal move — the
fallback of recursion_threadsafe.c 196-216 adopts the first legal move.  The
legacy recursion.c has no such fallback (see the counterexample). -/
theorem C3_theorem (movesPlayed : Nat) (lm : Move) (hist : List Board)
    (hz : Nat) (b : Board) (curDepth maxDepth : Nat) (player : Colour)
    (alpha beta : ℚ)
    (h1 : isCheckmate lm b .white = false)
    (h2 : isCheckmate lm b .black = false)
    (h3 : isStalemate lm b .white = false)
    (h4 : isStalemate lm b .black = false)
    (h5 : ¬(countBoardRepetitions_ThreadSafe hist b ≥ 3))
    (h6 : ¬(hz ≥ 100))
    (h7 : curDepth < maxDepth)
    (hmv : (validMoves lm b player).length ≠ 0) :
    1 ≤ (moveRankingRecursiveWithSequence_ThreadSafe movesPlayed lm hist hz b
      curDepth maxDepth player alpha beta).moves.length := by
  obtain ⟨k, hk⟩ : ∃ k, maxDepth - curDepth = k + 1 :=
    ⟨maxDepth - curDepth - 1, by omega⟩
  show 1 ≤ (moveRankingTSGo movesPlayed lm hist hz (maxDepth - curDepth) b
      curDepth maxDepth player alpha beta).moves.length
  rw [hk, moveRankingTSGo.eq_def, if_neg (by simp [h1]), if_neg (by simp [h2]),
    if_neg (by simp [h3]), if_neg (by simp [h4]), if_neg h5, if_neg h6,
    ite_self, Nat.add_zero, if_neg (by omega)]
  dsimp only
  rw [if_neg hmv]
  exact fallback_len _ _ _ hmv (by simp)

theorem C3_witness :
    1 ≤ (moveRankingRecursiveWithSequence_ThreadSafe 0 lm0 [] 0 bKingsE1E8 0 1 .white
      (-checkmate_score) checkmate_score).moves.length :=
  C3_theorem 0 lm0 [] 0 bKingsE1E8 0 1 .white (-checkmate_score) checkmate_score
    (by decide) (by decide) (by decide) (by decide) (by decide) (by decide)
    (by decide) (by decide)

set_option maxRecDepth 8000 in
/-- C3 counterexample: `bZugMate` is non-terminal for White with two legal
moves, yet the legacy search at depth 2 returns the empty move list: each
move is answered by mate, so both score exactly `-999999999`, the strict `>`
test never adopts a move over the `-999999999` initial best, and recursion.c
has no fallback. -/
theorem C3_counterexample :
    isCheckmate lm0 bZugMate .white = false ∧
    isCheckmate lm0 bZugMate .black = false ∧
    isStalemate lm0 bZugMate .white = false ∧
    isStalemate lm0 bZugMate .black = false ∧
    (validMoves lm0 bZugMate .white).length = 2 ∧
    (moveRankingRecursiveWithSequence 0 lm0 [] 0 bZugMate 0 2 .white
      (-999999999) 999999999).1.length = 0 := by
  refine ⟨by decide, by decide, by decide, by decide, by decide, by decide⟩

/-- C5 (corrected): with the minus sign of the claim dropped, the depth-cutoff
case of the negamax relation holds: at `curDepth = maxDepth`, on quiet
positions, the White score on `P` EQUALS the Black score on `mirror(P)`
whenever the evaluator is antisymmetric under mirroring on `P` — the stated
`search(P, White) = -search(mirror P, Black)` is wrong, as the
counterexample shows. -/
theorem C5_theorem (movesPlayed : Nat) (lm lm2 : Move) (hist hist2 : List Board)
    (hz hz2 : Nat) (b : Board) (d : Nat) (alpha beta alpha2 beta2 : ℚ)
    (h1 : isCheckmate lm b .white = false)
    (h2 : isCheckmate lm b .black = false)
    (h3 : isStalemate lm b .white = false)
    (h4 : isStalemate lm b .black = false)
    (h5 : ¬(countBoardRepetitions_ThreadSafe hist b ≥ 3))
    (h6 : ¬(hz ≥ 100))
    (g1 : isCheckmate lm2 (mirrorSpec b) .white = false)
    (g2 : isCheckmate lm2 (mirrorSpec b) .black = false)
    (g3 : isStalemate lm2 (mirrorSpec b) .white = false)
    (g4 : isStalemate lm2 (mirrorSpec b) .black = false)
    (g5 : ¬(countBoardRepetitions_ThreadSafe hist2 (mirrorSpec b) ≥ 3))
    (g6 : ¬(hz2 ≥ 100))
    (hEval : evaluateBoardPosition movesPlayed lm2 (mirrorSpec b) =
      -evaluateBoardPosition movesPlayed lm b) :
    (moveRankingRecursiveWithSequence_ThreadSafe movesPlayed lm hist hz b
      d d .white alpha beta).score =
    (moveRankingRecursiveWithSequence_ThreadSafe movesPlayed lm2 hist2 hz2
      (mirrorSpec b) d d .black alpha2 beta2).score := by
  have e1 := tsGo_case7 movesPlayed lm hist hz (d - d) b d d .white alpha beta
    h1 h2 h3 h4 h5 h6 (le_refl d)
  have e2 := tsGo_case7 movesPlayed lm2 hist2 hz2 (d - d) (mirrorSpec b) d d .black
    alpha2 beta2 g1 g2 g3 g4 g5 g6 (le_refl d)
  show (moveRankingTSGo movesPlayed lm hist hz (d - d) b d d .white alpha beta).score =
    (moveRankingTSGo movesPlayed lm2 hist2 hz2 (d - d) (mirrorSpec b) d d .black
      alpha2 beta2).score
  rw [e1, e2]
  simp [hEval]

theorem C5_witness :
    (moveRankingRecursiveWithSequence_ThreadSafe 0 lm0 [] 0 bKingsE1E8 0 0 .white
      (-checkmate_score) checkmate_score).score =
    (moveRankingRecursiveWithSequence_ThreadSafe 0 lm0 [] 0 (mirrorSpec bKingsE1E8)
      0 0 .black (-checkmate_score) checkmate_score).score :=
  C5_theorem 0 lm0 lm0 [] [] 0 0 bKingsE1E8 0 (-checkmate_score) checkmate_score
    (-checkmate_score) checkmate_score
    (by decide) (by decide) (by decide) (by decide) (by decide) (by decide)
    (by decide) (by decide) (by decide) (by decide) (by decide) (by decide)
    (by decide)

/-- C5 counterexample: on the quiet position `bKingsE4H8` at depth 0 the two
sides of the claimed identity differ: the White score on the position equals
`+13` while the negated Black score on the mirrored position equals `-13`. -/
theorem C5_counterexample :
    (moveRankingRecursiveWithSequence_ThreadSafe 0 lm0 [] 0 bKingsE4H8 0 0 .white
      (-checkmate_score) checkmate_score).score ≠
    -(moveRankingRecursiveWithSequence_ThreadSafe 0 lm0 [] 0 (mirrorSpec bKingsE4H8)
      0 0 .black (-checkmate_score) checkmate_score).score := by
  decide

/-- The raw make step leaves every square other than source and destination
unchanged. -/
theorem applyMoveRaw_frame (b : Board) (m : Move) (x y : Nat)
    (hA : ¬((x : Int) = m.toX ∧ (y : Int) = m.toY))
    (hB : ¬((x : Int) = m.fromX ∧ (y : Int) = m.fromY)) :
    applyMoveRaw b m x y = b x y := by
  simp only [applyMoveRaw, bset, bget]
  rw [if_neg hA, if_neg hB, if_neg hA]

/-- After the raw make step the source square is cleared. -/
theorem applyMoveRaw_src_type (b : Board) (m : Move)
    (hf1 : 0 ≤ m.fromX) (hf3 : 0 ≤ m.fromY)
    (h : ¬(m.fromX = m.toX ∧ m.fromY = m.toY)) :
    ((applyMoveRaw b m) m.fromX.toNat m.fromY.toNat).type = -1 := by
  simp only [applyMoveRaw, bset, bget]
  rw [Int.toNat_of_nonneg hf1, Int.toNat_of_nonneg hf3]
  rw [if_neg h, if_pos ⟨rfl, rfl⟩]

/-- After the raw make step a destination distinct from the source holds the
moving piece's type. -/
theorem applyMoveRaw_dest_type_ne (b : Board) (m : Move)
    (ht1 : 0 ≤ m.toX) (ht3 : 0 ≤ m.toY)
    (h : ¬(m.toX = m.fromX ∧ m.toY = m.fromY)) :
    ((applyMoveRaw b m) m.toX.toNat m.toY.toNat).type = (bget b m.fromX m.fromY).type := by
  simp only [applyMoveRaw, bset, bget]
  rw [Int.toNat_of_nonneg ht1, Int.toNat_of_nonneg ht3]
  rw [if_pos ⟨rfl, rfl⟩, if_neg h, if_pos ⟨rfl, rfl⟩]

/-- Two boards agreeing outside two distinct in-range cells whose occupancy
indicators have equal sums hold the same number of pieces. -/
theorem pieceCount_two_cells (b b' : Board) (x1 y1 x2 y2 : Nat)
    (hx1 : x1 < 8) (hy1 : y1 < 8) (hx2 : x2 < 8) (hy2 : y2 < 8)
    (hne : ¬(x1 = x2 ∧ y1 = y2))
    (hoff : ∀ x y : Nat, ¬(x = x1 ∧ y = y1) → ¬(x = x2 ∧ y = y2) → b' x y = b x y)
    (hflip : ((if (b' x1 y1).type ≠ -1 then 1 else 0) +
        (if (b' x2 y2).type ≠ -1 then 1 else 0) : ℤ) =
      (if (b x1 y1).type ≠ -1 then 1 else 0) +
        (if (b x2 y2).type ≠ -1 then 1 else 0)) :
    pieceCount b' = pieceCount b := by
  unfold pieceCount
  rw [← Finset.sum_product', ← Finset.sum_product']
  have hsub : ({(x1, y1), (x2, y2)} : Finset (ℕ × ℕ)) ⊆
      Finset.range 8 ×ˢ Finset.range 8 := by
    intro p hp
    simp only [Finset.mem_insert, Finset.mem_singleton] at hp
    rcases hp with rfl | rfl <;>
      simp [Finset.mem_product, Finset.mem_range, hx1, hy1, hx2, hy2]
  have hpairne : ((x1, y1) : ℕ × ℕ) ≠ (x2, y2) := by
    simp only [ne_eq, Prod.mk.injEq]
    exact hne
  rw [← Finset.sum_sdiff hsub, ← Finset.sum_sdiff hsub]
  congr 1
  · refine Finset.sum_congr rfl (fun p hp => ?_)
    simp only [Finset.mem_sdiff, Finset.mem_insert, Finset.mem_singleton] at hp
    have h1 : ¬(p.1 = x1 ∧ p.2 = y1) := fun hc => hp.2 (Or.inl (Prod.ext hc.1 hc.2))
    have h2 : ¬(p.1 = x2 ∧ p.2 = y2) := fun hc => hp.2 (Or.inr (Prod.ext hc.1 hc.2))
    rw [hoff p.1 p.2 h1 h2]
  · rw [Finset.sum_pair hpairne, Finset.sum_pair hpairne]
    exact hflip

/-- C9: applying a generator-emitted en-passant capture — a pawn move to a
different file whose destination square is empty — through the search's make
step changes only the source and destination squares; the square of the
passed enemy pawn `(toX, fromY)` is untouched and the piece count is
preserved (the captured pawn is NOT removed).  `executeUciMove`'s board
update agrees with the search's make step on such moves. -/
theorem C9_theorem {lm : Move} {b : Board} {c : Colour} {m : Move}
    (hm : m ∈ validMoves lm b c)
    (hsrc : (bget b m.fromX m.fromY).type = PAWN)
    (hdest : (bget b m.toX m.toY).type = -1)
    (hdx : m.toX ≠ m.fromX) (hdy : m.toY ≠ m.fromY) :
    (∀ x y : Nat, ¬((x : Int) = m.toX ∧ (y : Int) = m.toY) →
      ¬((x : Int) = m.fromX ∧ (y : Int) = m.fromY) →
      applyMoveSearch b m x y = b x y) ∧
    bget (applyMoveSearch b m) m.toX m.fromY = bget b m.toX m.fromY ∧
    pieceCount (applyMoveSearch b m) = pieceCount b ∧
    execUciCore b m.fromX m.fromY m.toX m.toY none = applyMoveSearch b m := by
  obtain ⟨hf1, hf2, hf3, hf4, hc⟩ := mem_validMoves_cases hm
  have hbounds : 0 ≤ m.toX ∧ m.toX < 8 ∧ 0 ≤ m.toY ∧ m.toY < 8 := by
    rcases hc with ⟨⟨_, _, e3, e4, e5, e6, _⟩, _⟩ | ⟨hk, _⟩
    · exact ⟨e3, e4, e5, e6⟩
    · exact absurd (hsrc.symm.trans hk) (by decide)
  obtain ⟨ht1, ht2, ht3, ht4⟩ := hbounds
  have hnk : (bget b m.fromX m.fromY).type = KING →
      m.toX - m.fromX ≤ 1 ∧ m.fromX - m.toX ≤ 1 :=
    fun hk => absurd (hsrc.symm.trans hk) (by decide)
  have hraw := applyMoveSearch_eq_raw b m ht1 ht3 hnk
  have hsd : ¬(m.fromX = m.toX ∧ m.fromY = m.toY) := fun hc => hdx hc.1.symm
  have hds : ¬(m.toX = m.fromX ∧ m.toY = m.fromY) := fun hc => hdx hc.1
  have hframe : ∀ x y : Nat, ¬((x : Int) = m.toX ∧ (y : Int) = m.toY) →
      ¬((x : Int) = m.fromX ∧ (y : Int) = m.fromY) →
      applyMoveSearch b m x y = b x y := by
    intro x y hA hB
    rw [hraw]
    exact applyMoveRaw_frame b m x y hA hB
  refine ⟨hframe, ?_, ?_, ?_⟩
  · exact hframe m.toX.toNat m.fromY.toNat
      (fun hc => hdy (by omega)) (fun hc => hdx (by omega))
  · rw [hraw]
    refine pieceCount_two_cells b (applyMoveRaw b m)
      m.fromX.toNat m.fromY.toNat m.toX.toNat m.toY.toNat
      (by omega) (by omega) (by omega) (by omega)
      (fun hc => hdx (by omega)) ?_ ?_
    · intro x y hA hB
      refine applyMoveRaw_frame b m x y (fun hc => ?_) (fun hc => ?_)
      · exact hB ⟨by omega, by omega⟩
      · exact hA ⟨by omega, by omega⟩
    · have e1 : ((applyMoveRaw b m) m.fromX.toNat m.fromY.toNat).type = -1 :=
        applyMoveRaw_src_type b m hf1 hf3 hsd
      have e2 : ((applyMoveRaw b m) m.toX.toNat m.toY.toNat).type =
          (bget b m.fromX m.fromY).type :=
        applyMoveRaw_dest_type_ne b m ht1 ht3 hds
      have e3 : (b m.fromX.toNat m.fromY.toNat).type = PAWN := hsrc
      have e4 : (b m.toX.toNat m.toY.toNat).type = -1 := hdest
      rw [e1, e2, e3, e4, hsrc]
      decide
  · rw [hraw]
    have hkt : ((applyMoveRaw b m) m.toX.toNat m.toY.toNat).type = PAWN := by
      rw [applyMoveRaw_dest_type_ne b m ht1 ht3 hds]
      exact hsrc
    simp only [execUciCore]
    split_ifs with hk h6 h2q
    · exact absurd (hkt.symm.trans hk.1) (by decide)
    · exact absurd (hkt.symm.trans hk.1) (by decide)
    · exact absurd (hkt.symm.trans hk.1) (by decide)
    · rfl

theorem C9_witness :
    pieceCount (applyMoveSearch bEnPassant ⟨4, 4, 3, 5⟩) = pieceCount bEnPassant :=
  (C9_theorem
    (by decide : (⟨4, 4, 3, 5⟩ : Move) ∈ validMoves lmEp bEnPassant .white)
    (by decide) (by decide) (by decide) (by decide)).2.2.1

end Sacrifice
